import Mathlib

/-!
# Path confinement core of `logistics_system.c`

A shallow embedding of `sanitize_filename`, `is_valid_path`,
`select_base_path_with_other`, the path table built by `initialize_paths`,
the role contexts of `select_user_type`, the path handling of `copy_file`,
`move_file` and `create_symbolic_link`, the escaping loop of
`append_to_file`, and the dispatch of `use_alias` and `main_menu`, together
with the libc routines they call, and theorems about them.

Conventions of the embedding.

* A C string is the list of its `char`s before the terminating NUL (`CStr`),
  one list element for each `char`; reading the byte at index `strlen`
  yields the terminator, which is represented by `none`.
* A pointer into a string is the offset from its start; `NULL` is `none`.
* `int` results used as truth values (`return 1` / `return 0`) are `Bool`.
* `realpath` is a parameter: a partial function on path strings (`none` is
  a `NULL` return), one snapshot of the file system. POSIX makes `realpath`
  fail on the empty string; theorems that depend on it take
  `realpath [] = none` as a hypothesis.
* `PATH_MAX` comes from `<limits.h>` and is a parameter of the functions
  that use it.
* Console traffic is explicit state (`World`): the unread part of `stdin` and
  the list of `printf` calls made; `stat` and `system` are parameters like
  `realpath`. `stdin` is a stream of bytes, NUL included; a buffer filled
  from it holds the C string that ends at its first NUL (`c_string`).
-/

namespace Logistics

/-- Contents of a NUL-terminated C string, terminator excluded. -/
abbrev CStr := List Char

/-- The file system as seen through `realpath(3)`. -/
abbrev Realpath := CStr → Option CStr

/-! ## libc string routines -/

/-- Offset of the first occurrence of `c` in `s`, as `strchr(s, c)`. -/
def strchr : CStr → Char → Option Nat
  | [], _ => none
  | x :: xs, c => if x = c then some 0 else (strchr xs c).map (· + 1)

/-- Offset of the last occurrence of `c` in `s`, as `strrchr(s, c)`. -/
def strrchr : CStr → Char → Option Nat
  | [], _ => none
  | x :: xs, c =>
    match strrchr xs c with
    | some i => some (i + 1)
    | none => if x = c then some 0 else none

/-- Offset of the first occurrence of `needle` in `hay`, as `strstr(hay, needle)`. -/
def strstr : CStr → CStr → Option Nat
  | [], needle => if needle.isPrefixOf [] then some 0 else none
  | x :: xs, needle =>
    if needle.isPrefixOf (x :: xs) then some 0 else (strstr xs needle).map (· + 1)

/-- Length of a string, as `strlen(s)`. -/
def strlen (s : CStr) : Nat := s.length

/-- Sign of the comparison of the first `n` characters, as `strncmp(a, b, n)`. -/
def strncmp : CStr → CStr → Nat → Int
  | _, _, 0 => 0
  | [], [], _ + 1 => 0
  | [], _ :: _, _ + 1 => -1
  | _ :: _, [], _ + 1 => 1
  | x :: xs, y :: ys, n + 1 =>
    if x = y then strncmp xs ys n else if x.toNat < y.toNat then -1 else 1

/-- The string held by `dst` after `strncpy(dst, src, n); dst[n - 1] = 0`. -/
def strncpy_terminated (src : CStr) (n : Nat) : CStr := src.take (n - 1)

/-- The byte `s[i]` for `i ≤ strlen(s)`; `none` is the terminating NUL. -/
def byteAt (s : CStr) (i : Nat) : Option Char := s.get? i

/-! ## `sanitize_filename` -/

/-- Embedding of `sanitize_filename(filename, sanitized, size)`: `none` is
`return 0`, `some out` is `return 1` with `out` the string left in
`sanitized`. The argument is a string, so the `filename == NULL` test has no
counterpart. -/
def sanitize_filename (filename : CStr) (size : Nat) : Option CStr :=
  if byteAt filename 0 = none then none
  else if byteAt filename 0 = some '/' then none
  else if (strstr filename ['.', '.']).isSome || (strchr filename '/').isSome
      || (strchr filename '\\').isSome then none
  else if strlen filename ≥ size then none
  else some (strncpy_terminated filename size)

/-! ## `is_valid_path` -/

/-- First half of `is_valid_path`: the contents of `real_target` when the
loop over the base paths is reached, `none` when the function has already
returned 0. -/
def is_valid_path.real_target (PATH_MAX : Nat) (realpath : Realpath) (path : CStr) :
    Option CStr :=
  match realpath path with
  | some t => some t
  | none =>
    let path_copy := strncpy_terminated path PATH_MAX
    match strrchr path_copy '/' with
    | none => none
    | some 0 => none
    | some (i + 1) => realpath (path_copy.take (i + 1))

/-- The test of the loop body of `is_valid_path`:
`strncmp(real_base, real_target, base_len) == 0 &&
 (real_target[base_len] == '/' || real_target[base_len] == '\0')`. -/
def is_valid_path.base_matches (real_base real_target : CStr) : Bool :=
  let base_len := strlen real_base
  strncmp real_base real_target base_len == 0 &&
    (byteAt real_target base_len == some '/' || byteAt real_target base_len == none)

/-- The loop of `is_valid_path` over `base_paths[0 .. base_paths_count)`. -/
def is_valid_path.loop (realpath : Realpath) (real_target : CStr) : List CStr → Bool
  | [] => false
  | b :: bs =>
    match realpath b with
    | none => is_valid_path.loop realpath real_target bs
    | some real_base =>
      if is_valid_path.base_matches real_base real_target then true
      else is_valid_path.loop realpath real_target bs

/-- Embedding of `is_valid_path(base_paths, base_paths_count, path)`; the
array and its count are one list. -/
def is_valid_path (PATH_MAX : Nat) (realpath : Realpath) (base_paths : List CStr)
    (path : CStr) : Bool :=
  match is_valid_path.real_target PATH_MAX realpath path with
  | none => false
  | some real_target => is_valid_path.loop realpath real_target base_paths

/-! ## `is_valid_path` on explicit buffers -/

/-- The memory `is_valid_path` works on: the strings behind the caller's
`base_paths` array and `path` pointer, and the function's local buffers
`real_target`, `path_copy` and `real_base`, which hold whatever the stack
holds when the call starts. -/
structure PathMemory where
  base_paths : List CStr
  path : CStr
  real_target : CStr
  path_copy : CStr
  real_base : CStr
  deriving DecidableEq

/-- The loop of `is_valid_path` with its writes: each `realpath(base_paths[i],
real_base)` overwrites `real_base`; a failing `realpath` leaves in the buffer
what `scribble` says. -/
def is_valid_path.loop_run (realpath : Realpath) (scribble : CStr → CStr) :
    List CStr → PathMemory → Bool × PathMemory
  | [], m => (false, m)
  | b :: bs, m =>
    match realpath b with
    | none => is_valid_path.loop_run realpath scribble bs { m with real_base := scribble b }
    | some resolved =>
      if is_valid_path.base_matches resolved m.real_target then
        (true, { m with real_base := resolved })
      else is_valid_path.loop_run realpath scribble bs { m with real_base := resolved }

/-- Embedding of `is_valid_path` with its writes: the value returned and the
memory afterwards. `realpath(p, buf)` writes the resolved path to `buf`, or on
failure whatever `scribble p` says; `strncpy` and `*last_slash = 0` write to
`path_copy`. -/
def is_valid_path.run (PATH_MAX : Nat) (realpath : Realpath) (scribble : CStr → CStr)
    (m : PathMemory) : Bool × PathMemory :=
  match realpath m.path with
  | some resolved =>
    is_valid_path.loop_run realpath scribble m.base_paths { m with real_target := resolved }
  | none =>
    match strrchr (strncpy_terminated m.path PATH_MAX) '/' with
    | none =>
      (false, { m with real_target := scribble m.path,
                       path_copy := strncpy_terminated m.path PATH_MAX })
    | some 0 =>
      (false, { m with real_target := scribble m.path,
                       path_copy := strncpy_terminated m.path PATH_MAX })
    | some (i + 1) =>
      match realpath ((strncpy_terminated m.path PATH_MAX).take (i + 1)) with
      | none =>
        (false, { m with real_target := scribble ((strncpy_terminated m.path PATH_MAX).take (i + 1)),
                         path_copy := (strncpy_terminated m.path PATH_MAX).take (i + 1) })
      | some resolved =>
        is_valid_path.loop_run realpath scribble m.base_paths
          { m with real_target := resolved,
                   path_copy := (strncpy_terminated m.path PATH_MAX).take (i + 1) }

/-! ## `initialize_paths` -/

/-- The global path buffers and base-path arrays filled by `initialize_paths`. -/
structure Paths where
  CURRENT_DIR : CStr
  LOGISTICS_BASE_PATH : CStr
  ADMIN_BASE_PATH : CStr
  WAREHOUSE_BASE_PATH : CStr
  CUSTOMER_BASE_PATH : CStr
  admin_base_paths : List CStr
  warehouse_base_paths : List CStr
  customer_base_paths : List CStr
  deriving DecidableEq

/-- The path table built by `initialize_paths()`; `getcwd` is the result of
the `getcwd` call (`none` for `NULL`), and `none` is `exit(EXIT_FAILURE)`.
Each `snprintf(buf, PATH_MAX, "%s/name", parent)` returns the length of
`parent ++ "/name"`, and the function exits when that is `>= PATH_MAX`. The
`mkdir -p` commands issued afterwards leave the table unchanged. -/
def initialize_paths (PATH_MAX : Nat) (getcwd : Option CStr) : Option Paths :=
  match getcwd with
  | none => none
  | some CURRENT_DIR =>
    let LOGISTICS_BASE_PATH := CURRENT_DIR ++ "/logistics".toList
    if LOGISTICS_BASE_PATH.length ≥ PATH_MAX then none else
    let ADMIN_BASE_PATH := LOGISTICS_BASE_PATH ++ "/admin".toList
    if ADMIN_BASE_PATH.length ≥ PATH_MAX then none else
    let WAREHOUSE_BASE_PATH := LOGISTICS_BASE_PATH ++ "/warehouse".toList
    if WAREHOUSE_BASE_PATH.length ≥ PATH_MAX then none else
    let CUSTOMER_BASE_PATH := LOGISTICS_BASE_PATH ++ "/customers".toList
    if CUSTOMER_BASE_PATH.length ≥ PATH_MAX then none else
    some
      { CURRENT_DIR := CURRENT_DIR
        LOGISTICS_BASE_PATH := LOGISTICS_BASE_PATH
        ADMIN_BASE_PATH := ADMIN_BASE_PATH
        WAREHOUSE_BASE_PATH := WAREHOUSE_BASE_PATH
        CUSTOMER_BASE_PATH := CUSTOMER_BASE_PATH
        admin_base_paths := [ADMIN_BASE_PATH, WAREHOUSE_BASE_PATH, CUSTOMER_BASE_PATH]
        warehouse_base_paths := [WAREHOUSE_BASE_PATH, CUSTOMER_BASE_PATH]
        customer_base_paths := [CUSTOMER_BASE_PATH] }

/-! ## File systems used in examples -/

/-- A file system in which exactly the listed paths exist, each resolving to
the canonical path paired with it. -/
def fsOf (entries : List (CStr × CStr)) : Realpath :=
  fun p => (entries.find? (fun e => e.1 == p)).map (·.2)

/-- A file system holding the single directory `/base`. -/
def fsBase : Realpath := fsOf [("/base".toList, "/base".toList)]

/-- A file system holding `/base` and its siblings `/basefoo` (with a file
`x`) and `/base2`, all canonical. -/
def fsSibling : Realpath :=
  fsOf [("/base".toList, "/base".toList), ("/basefoo".toList, "/basefoo".toList),
    ("/basefoo/x".toList, "/basefoo/x".toList), ("/base2".toList, "/base2".toList)]

/-- A file system in which `/base/link` is a symbolic link to `/etc`. -/
def fsLink : Realpath :=
  fsOf [("/base".toList, "/base".toList), ("/etc".toList, "/etc".toList),
    ("/etc/passwd".toList, "/etc/passwd".toList), ("/base/link".toList, "/etc".toList),
    ("/base/link/passwd".toList, "/etc/passwd".toList)]

/-- The three role roots below `/srv/logistics`, each resolving to itself. -/
def fsRoles : Realpath :=
  fsOf [("/srv/logistics/admin".toList, "/srv/logistics/admin".toList),
    ("/srv/logistics/warehouse".toList, "/srv/logistics/warehouse".toList),
    ("/srv/logistics/customers".toList, "/srv/logistics/customers".toList)]

/-- A file system holding the single directory `/b`. -/
def fsB : Realpath := fsOf [(['/', 'b'], ['/', 'b'])]

/-- A path of 4097 bytes, `/b/aaa...a/x`, whose middle segment has 4092 bytes. -/
def longPath : CStr := ['/', 'b', '/'] ++ List.replicate 4092 'a' ++ ['/', 'x']

/-- The path table of a process started in `/srv`. -/
def pathsSrv : Paths :=
  { CURRENT_DIR := "/srv".toList
    LOGISTICS_BASE_PATH := "/srv/logistics".toList
    ADMIN_BASE_PATH := "/srv/logistics/admin".toList
    WAREHOUSE_BASE_PATH := "/srv/logistics/warehouse".toList
    CUSTOMER_BASE_PATH := "/srv/logistics/customers".toList
    admin_base_paths := ["/srv/logistics/admin".toList, "/srv/logistics/warehouse".toList,
      "/srv/logistics/customers".toList]
    warehouse_base_paths := ["/srv/logistics/warehouse".toList,
      "/srv/logistics/customers".toList]
    customer_base_paths := ["/srv/logistics/customers".toList] }

/-! ## Console input and output -/

/-- One `printf` call, by format: a text, a numbered menu line
`"%d. %s\n"`, or the numbered line of the synthetic "Other" option. -/
inductive Printed
  | text (s : CStr)
  | entry (index : Int) (path : CStr)
  | other_entry (index : Int)
  deriving DecidableEq

/-- The mutable state that `select_base_path_with_other` touches: the unread
part of `stdin`, what has been printed, and the function's
`static char temp_path[PATH_MAX]`. -/
structure World where
  stdin : CStr
  stdout : List Printed
  temp_path : CStr
  deriving DecidableEq

/-- One `printf` call. -/
def World.printf (w : World) (p : Printed) : World :=
  { w with stdout := w.stdout ++ [p] }

/-- Characters taken by `fgets` when at most `n` may be stored: up to and
including the first newline; the second component is what stays unread. -/
def fgets.read : Nat → CStr → CStr × CStr
  | 0, s => ([], s)
  | _ + 1, [] => ([], [])
  | n + 1, c :: cs =>
    if c = '\n' then ([c], cs) else ((fgets.read n cs).1.cons c, (fgets.read n cs).2)

/-- Embedding of `fgets(buffer, size, stdin)`: the bytes stored in the buffer
(`none` is `NULL`, returned at end of file) and the unread input. The input
is a byte stream and may hold NUL bytes. -/
def fgets (size : Nat) (stdin : CStr) : Option CStr × CStr :=
  match stdin with
  | [] => (none, [])
  | c :: cs => (some (fgets.read (size - 1) (c :: cs)).1, (fgets.read (size - 1) (c :: cs)).2)

/-- Length of the initial segment of `s` without characters of `reject`, as
`strcspn(s, reject)`. -/
def strcspn : CStr → CStr → Nat
  | [], _ => 0
  | c :: cs, reject => if c ∈ reject then 0 else strcspn cs reject + 1

/-- The C string held by a buffer filled with the given bytes: the bytes
before the first NUL. `fgets` stores NUL bytes of the input like any other
byte, and every string routine applied to the buffer stops at the first. -/
def c_string (bytes : List Char) : CStr := bytes.takeWhile (fun b => b != '\x00')

/-- Embedding of `get_input(prompt, buffer, size)`: the string in the buffer
after `buffer[strcspn(buffer, "\n")] = 0`, `none` for `NULL`. The bytes come
from `fgets`; the string they form ends at the first NUL among them. -/
def get_input (prompt : CStr) (size : Nat) (w : World) : Option CStr × World :=
  let w1 := w.printf (.text prompt)
  match fgets size w1.stdin with
  | (some bytes, rest) =>
    let buffer := c_string bytes
    (some (buffer.take (strcspn buffer ['\n'])), { w1 with stdin := rest })
  | (none, rest) => (none, { w1 with stdin := rest })

/-- White space in the "C" locale, as `isspace`. -/
def isspace (c : Char) : Bool :=
  c = ' ' || c = '\t' || c = '\n' || c = '\x0b' || c = '\x0c' || c = '\r'

/-- Decimal digits, as `isdigit`. -/
def isdigit (c : Char) : Bool := '0'.toNat ≤ c.toNat && c.toNat ≤ '9'.toNat

/-- The digit loop of `atoi`, with the value accumulated so far. -/
def atoi.digits : CStr → Int → Int
  | [], acc => acc
  | c :: cs, acc =>
    if isdigit c then atoi.digits cs (acc * 10 + ((c.toNat : Int) - ('0'.toNat : Int))) else acc

/-- Embedding of `atoi(s)`: white space, an optional sign, then digits. The
buffers it is applied to hold at most 9 characters, so the value fits an
`int`. -/
def atoi (s : CStr) : Int :=
  match s.dropWhile isspace with
  | '-' :: r => - atoi.digits r 0
  | '+' :: r => atoi.digits r 0
  | r => atoi.digits r 0

/-! ## `UserContext` and `select_user_type` -/

/-- The global alias array a `UserContext` points to. -/
inductive AliasTable
  | admin_aliases
  | warehouse_aliases
  deriving DecidableEq

/-- Embedding of `struct UserContext`; a `NULL` pointer is `none`. -/
structure UserContext where
  base_paths : List CStr
  base_paths_count : Nat
  user_type : CStr
  aliases : Option AliasTable
  alias_count : Option AliasTable
  deriving DecidableEq

/-- The `UserContext` that `select_user_type` fills in for the menu choice
`atoi(choice_str)`; `none` for "Exit" and for an invalid choice. -/
def select_user_type.user_ctx (P : Paths) (choice : Int) : Option UserContext :=
  if choice = 1 then
    some { user_type := "admin".toList, base_paths := P.admin_base_paths, base_paths_count := 3,
           aliases := some .admin_aliases, alias_count := some .admin_aliases }
  else if choice = 2 then
    some { user_type := "warehouse".toList, base_paths := P.warehouse_base_paths,
           base_paths_count := 2, aliases := some .warehouse_aliases,
           alias_count := some .warehouse_aliases }
  else if choice = 3 then
    some { user_type := "customer".toList, base_paths := P.customer_base_paths,
           base_paths_count := 1, aliases := none, alias_count := none }
  else none

/-! ## `select_base_path_with_other` -/

/-- The buffer a pointer returned by `select_base_path_with_other` addresses:
`user_ctx->base_paths[i]` or the static `temp_path`. -/
inductive PathRef
  | base_paths (i : Nat)
  | temp_path
  deriving DecidableEq

/-- The string read through a `PathRef`. -/
def PathRef.read (user_ctx : UserContext) (w : World) : PathRef → CStr
  | .base_paths i => user_ctx.base_paths.getD i []
  | .temp_path => w.temp_path

/-- The loop `for (i = 0; i < base_paths_count; i++) printf("%d. %s\n", i + 1, base_paths[i])`. -/
def print_base_paths (user_ctx : UserContext) (w : World) : World :=
  { w with
    stdout := w.stdout ++ List.map
      (fun (i : Nat) => Printed.entry ((i : Int) + 1) (user_ctx.base_paths.getD i []))
      (List.range user_ctx.base_paths_count) }

/-- The menu printed first by `select_base_path_with_other`: the prompt, the
numbered base paths, and the "Other" option under the number
`base_paths_count + 1`. -/
def select_base_path_with_other.menu (user_ctx : UserContext) (prompt : CStr) (w : World) :
    World :=
  (print_base_paths user_ctx (w.printf (.text prompt))).printf
    (.other_entry ((user_ctx.base_paths_count : Int) + 1))

/-- The second menu, printed on entering the "Other" branch: the numbered
base paths alone. -/
def select_base_path_with_other.other_menu (user_ctx : UserContext) (w : World) : World :=
  print_base_paths user_ctx (w.printf
    (.text "Select the base directory under which the subdirectory is located:".toList))

/-- The part of the "Other" branch of `select_base_path_with_other` that
follows the reading of the subdirectory name. -/
def select_base_path_with_other.subdir (PATH_MAX : Nat) (realpath : Realpath)
    (stat_is_dir : CStr → Bool) (user_ctx : UserContext) (selected_base_path subdir_name : CStr)
    (w : World) : Option PathRef × World :=
  match sanitize_filename subdir_name 256 with
  | none => (none, w.printf (.text "Invalid subdirectory name.".toList))
  | some sanitized_subdir =>
    let formatted := selected_base_path ++ '/' :: sanitized_subdir
    let w1 : World := { w with temp_path := formatted.take (PATH_MAX - 1) }
    if formatted.length ≥ PATH_MAX then (none, w1.printf (.text "Path is too long.".toList))
    else if ! is_valid_path PATH_MAX realpath
        (user_ctx.base_paths.take user_ctx.base_paths_count) w1.temp_path then
      (none, w1.printf (.text "Invalid or forbidden path.".toList))
    else if stat_is_dir w1.temp_path then (some .temp_path, w1)
    else (none, w1.printf (.text "Directory does not exist.".toList))

/-- The "Other" branch of `select_base_path_with_other`, entered when
`dir_choice == user_ctx->base_paths_count`. -/
def select_base_path_with_other.other (PATH_MAX : Nat) (realpath : Realpath)
    (stat_is_dir : CStr → Bool) (user_ctx : UserContext) (w : World) : Option PathRef × World :=
  let w1 := select_base_path_with_other.other_menu user_ctx w
  match get_input "Enter your choice: ".toList 10 w1 with
  | (none, w2) => (none, w2.printf (.text "Error reading input.".toList))
  | (some dir_choice_str, w2) =>
    let base_dir_choice := atoi dir_choice_str - 1
    if base_dir_choice < 0 ∨ base_dir_choice ≥ (user_ctx.base_paths_count : Int) then
      (none, w2.printf (.text "Invalid choice.".toList))
    else
      let selected_base_path := user_ctx.base_paths.getD base_dir_choice.toNat []
      match get_input "Enter the subdirectory path under selected base directory: ".toList
          256 w2 with
      | (none, w3) => (none, w3.printf (.text "Error reading input.".toList))
      | (some subdir_name, w3) =>
        select_base_path_with_other.subdir PATH_MAX realpath stat_is_dir user_ctx
          selected_base_path subdir_name w3

/-- Embedding of `select_base_path_with_other(user_ctx, prompt)`: the pointer
returned (`none` is `NULL`) and the state afterwards. `stat_is_dir p` is
`stat(p, &sb) == 0 && S_ISDIR(sb.st_mode)`. -/
def select_base_path_with_other (PATH_MAX : Nat) (realpath : Realpath)
    (stat_is_dir : CStr → Bool) (user_ctx : UserContext) (prompt : CStr) (w : World) :
    Option PathRef × World :=
  let w1 := select_base_path_with_other.menu user_ctx prompt w
  match get_input "Enter your choice: ".toList 10 w1 with
  | (none, w2) => (none, w2.printf (.text "Error reading input.".toList))
  | (some dir_choice_str, w2) =>
    let dir_choice := atoi dir_choice_str - 1
    if dir_choice < 0 ∨ dir_choice > (user_ctx.base_paths_count : Int) then
      (none, w2.printf (.text "Invalid choice.".toList))
    else if dir_choice = (user_ctx.base_paths_count : Int) then
      select_base_path_with_other.other PATH_MAX realpath stat_is_dir user_ctx w2
    else (some (.base_paths dir_choice.toNat), w2)

/-- The string returned by `select_base_path_with_other`, read right after
the call. -/
def select_base_path_with_other.value (PATH_MAX : Nat) (realpath : Realpath)
    (stat_is_dir : CStr → Bool) (user_ctx : UserContext) (prompt : CStr) (w : World) :
    Option CStr :=
  let r := select_base_path_with_other PATH_MAX realpath stat_is_dir user_ctx prompt w
  r.1.map (PathRef.read user_ctx r.2)

/-- The string returned by the "Other" branch, read right after it. -/
def select_base_path_with_other.other_value (PATH_MAX : Nat) (realpath : Realpath)
    (stat_is_dir : CStr → Bool) (user_ctx : UserContext) (w : World) : Option CStr :=
  let r := select_base_path_with_other.other PATH_MAX realpath stat_is_dir user_ctx w
  r.1.map (PathRef.read user_ctx r.2)

/-! ## `main` up to the first session -/

/-- The command line built by `snprintf(command, sizeof(command), "mkdir -p \"%s\"", path)`. -/
def mkdir_command (path : CStr) : CStr := "mkdir -p \"".toList ++ path ++ "\"".toList

/-- The `system` calls of `initialize_paths`, in order; their return values
are discarded by the function. -/
def initialize_paths.commands (P : Paths) : List CStr :=
  [mkdir_command P.LOGISTICS_BASE_PATH, mkdir_command P.ADMIN_BASE_PATH,
   mkdir_command P.WAREHOUSE_BASE_PATH, mkdir_command P.CUSTOMER_BASE_PATH]

/-- How `main` proceeds: the process exits with `EXIT_FAILURE` inside
`initialize_paths`, or `select_user_type` is entered with the path table. -/
inductive Startup
  | exit_failure
  | select_user_type (P : Paths)
  deriving DecidableEq

/-- Embedding of `main` up to the call of `select_user_type`. `system` gives
the status of each command; `initialize_paths` runs its four `mkdir -p`
commands without looking at the status. -/
def main_startup (PATH_MAX : Nat) (getcwd : Option CStr) (system : CStr → Int) : Startup :=
  match initialize_paths PATH_MAX getcwd with
  | none => .exit_failure
  | some P =>
    let _statuses := (initialize_paths.commands P).map system
    .select_user_type P

/-- The part of the pending input that one `get_input` call with a buffer of
`size` bytes delivers: of the first `size - 1` bytes, those before the first
newline, up to the first NUL. -/
def line_read (size : Nat) (stdin : CStr) : CStr :=
  c_string ((stdin.take (size - 1)).takeWhile (fun b => b != '\n'))

/-- An input line that is a number in the strict sense: one or more decimal
digits and nothing else. -/
def is_number (s : CStr) : Bool := s ≠ [] && s.all isdigit

/-- An input line that begins with a number as `atoi` reads it: optional
white space, an optional sign, then at least one digit. -/
def starts_with_number (s : CStr) : Bool :=
  match s.dropWhile isspace with
  | '-' :: r => (r.head?.map isdigit).getD false
  | '+' :: r => (r.head?.map isdigit).getD false
  | r => (r.head?.map isdigit).getD false

/-- The `UserContext` of a root list, its count being the number of entries. -/
def UserContext.of_roots (roots : List CStr) : UserContext :=
  { base_paths := roots, base_paths_count := roots.length, user_type := [],
    aliases := none, alias_count := none }

/-- The state before any input is consumed. -/
def World.start (stdin : CStr) : World := { stdin := stdin, stdout := [], temp_path := [] }

/-- Roots of the selection example, each resolving to itself. -/
def rootsExample : List CStr := ["/admin".toList, "/warehouse".toList, "/customer".toList]

/-- The example roots with the directory `/warehouse/incoming`. -/
def fsIncoming : Realpath :=
  fsOf [("/admin".toList, "/admin".toList), ("/warehouse".toList, "/warehouse".toList),
    ("/customer".toList, "/customer".toList),
    ("/warehouse/incoming".toList, "/warehouse/incoming".toList)]

/-- The example roots alone. -/
def fsRootsOnly : Realpath :=
  fsOf [("/admin".toList, "/admin".toList), ("/warehouse".toList, "/warehouse".toList),
    ("/customer".toList, "/customer".toList)]

/-- Directories of a file system given by `realpath` entries: every path that resolves. -/
def dirsOf (fs : Realpath) : CStr → Bool := fun p => (fs p).isSome

/-! ## File operations with two directory selections -/

/-- What `stat` finds at a path. -/
inductive FileKind
  | directory
  | regular
  | other
  deriving DecidableEq

/-- The file system as seen through `stat(2)`: `none` is a return value
other than 0. -/
abbrev Stat := CStr → Option FileKind

/-- The test `stat(p, &sb) == 0 && S_ISDIR(sb.st_mode)`. -/
def Stat.is_dir (stat : Stat) : CStr → Bool := fun p => stat p == some FileKind.directory

/-- The part of `copy_file` after the two selections, given the strings
formatted by the two `snprintf` calls: the command handed to `system`, `none`
when the function returns before. -/
def copy_file.issue (PATH_MAX : Nat) (realpath : Realpath) (stat : Stat) (user_ctx : UserContext)
    (full_source_path full_destination_path : CStr) (w : World) : Option CStr × World :=
  if full_source_path.length ≥ PATH_MAX ∨ full_destination_path.length ≥ PATH_MAX then
    (none, w.printf (.text "Path is too long.".toList))
  else if ! is_valid_path PATH_MAX realpath
      (user_ctx.base_paths.take user_ctx.base_paths_count) full_source_path
    || ! is_valid_path PATH_MAX realpath
      (user_ctx.base_paths.take user_ctx.base_paths_count) full_destination_path then
    (none, w.printf (.text "Invalid path. Operation not allowed.".toList))
  else if stat full_source_path = none then
    (none, w.printf (.text "Source file does not exist.".toList))
  else
    (some ("cp \"".toList ++ full_source_path ++ "\" \"".toList ++ full_destination_path
      ++ "\"".toList), w)

/-- Embedding of `copy_file(user_ctx)` up to its `system` call: the command
line issued (`none` when the function returns before) and the state. The two
base paths are pointers; they are read when the full paths are formatted,
after both selections. -/
def copy_file (PATH_MAX : Nat) (realpath : Realpath) (stat : Stat) (user_ctx : UserContext)
    (w : World) : Option CStr × World :=
  match get_input "Enter source file to copy: ".toList 256 w with
  | (none, w1) => (none, w1.printf (.text "Error reading input.".toList))
  | (some source, w1) =>
    match get_input "Enter destination file name: ".toList 256 w1 with
    | (none, w2) => (none, w2.printf (.text "Error reading input.".toList))
    | (some destination, w2) =>
      match sanitize_filename source 256, sanitize_filename destination 256 with
      | some sanitized_source, some sanitized_destination =>
        match select_base_path_with_other PATH_MAX realpath stat.is_dir user_ctx
            "Select the directory where the source file is located:".toList w2 with
        | (none, w3) => (none, w3)
        | (some source_base_path, w3) =>
          match select_base_path_with_other PATH_MAX realpath stat.is_dir user_ctx
              "Select the directory where the destination file will be created:".toList w3 with
          | (none, w4) => (none, w4)
          | (some dest_base_path, w4) =>
            copy_file.issue PATH_MAX realpath stat user_ctx
              (PathRef.read user_ctx w4 source_base_path ++ '/' :: sanitized_source)
              (PathRef.read user_ctx w4 dest_base_path ++ '/' :: sanitized_destination) w4
      | _, _ => (none, w2.printf (.text "Invalid source or destination file name.".toList))

/-- The part of `move_file` after the two selections. -/
def move_file.issue (PATH_MAX : Nat) (realpath : Realpath) (stat : Stat) (user_ctx : UserContext)
    (full_source_path full_destination_path : CStr) (w : World) : Option CStr × World :=
  if full_source_path.length ≥ PATH_MAX ∨ full_destination_path.length ≥ PATH_MAX then
    (none, w.printf (.text "Path is too long.".toList))
  else if ! is_valid_path PATH_MAX realpath
      (user_ctx.base_paths.take user_ctx.base_paths_count) full_source_path
    || ! is_valid_path PATH_MAX realpath
      (user_ctx.base_paths.take user_ctx.base_paths_count) full_destination_path then
    (none, w.printf (.text "Invalid path. Operation not allowed.".toList))
  else if stat full_source_path = none then
    (none, w.printf (.text "Source file does not exist.".toList))
  else
    (some ("mv \"".toList ++ full_source_path ++ "\" \"".toList ++ full_destination_path
      ++ "\"".toList), w)

/-- Embedding of `move_file(user_ctx)` up to its `system` call. -/
def move_file (PATH_MAX : Nat) (realpath : Realpath) (stat : Stat) (user_ctx : UserContext)
    (w : World) : Option CStr × World :=
  match get_input "Enter source file to move: ".toList 256 w with
  | (none, w1) => (none, w1.printf (.text "Error reading input.".toList))
  | (some source_file_name, w1) =>
    match sanitize_filename source_file_name 256 with
    | none => (none, w1.printf (.text "Invalid source file name.".toList))
    | some sanitized_source =>
      match select_base_path_with_other PATH_MAX realpath stat.is_dir user_ctx
          "Select the directory where the source file is located:".toList w1 with
      | (none, w2) => (none, w2)
      | (some source_base_path, w2) =>
        match select_base_path_with_other PATH_MAX realpath stat.is_dir user_ctx
            "Select the directory where the file will be moved to:".toList w2 with
        | (none, w3) => (none, w3)
        | (some dest_base_path, w3) =>
          move_file.issue PATH_MAX realpath stat user_ctx
            (PathRef.read user_ctx w3 source_base_path ++ '/' :: sanitized_source)
            (PathRef.read user_ctx w3 dest_base_path ++ '/' :: sanitized_source) w3

/-- The part of `create_symbolic_link` after the two selections. -/
def create_symbolic_link.issue (PATH_MAX : Nat) (realpath : Realpath) (stat : Stat)
    (user_ctx : UserContext) (full_target_path full_link_path : CStr) (w : World) :
    Option CStr × World :=
  if full_target_path.length ≥ PATH_MAX ∨ full_link_path.length ≥ PATH_MAX then
    (none, w.printf (.text "Path is too long.".toList))
  else if ! is_valid_path PATH_MAX realpath
      (user_ctx.base_paths.take user_ctx.base_paths_count) full_target_path
    || ! is_valid_path PATH_MAX realpath
      (user_ctx.base_paths.take user_ctx.base_paths_count) full_link_path then
    (none, w.printf (.text "Invalid path. Operation not allowed.".toList))
  else if stat full_target_path = none then
    (none, w.printf (.text "Target file does not exist.".toList))
  else
    (some ("ln -s \"".toList ++ full_target_path ++ "\" \"".toList ++ full_link_path
      ++ "\"".toList), w)

/-- Embedding of `create_symbolic_link(user_ctx)` up to its `system` call. -/
def create_symbolic_link (PATH_MAX : Nat) (realpath : Realpath) (stat : Stat)
    (user_ctx : UserContext) (w : World) : Option CStr × World :=
  match get_input "Enter target file for symbolic link: ".toList 256 w with
  | (none, w1) => (none, w1.printf (.text "Error reading input.".toList))
  | (some target, w1) =>
    match get_input "Enter symbolic link name: ".toList 256 w1 with
    | (none, w2) => (none, w2.printf (.text "Error reading input.".toList))
    | (some link_name, w2) =>
      match sanitize_filename target 256, sanitize_filename link_name 256 with
      | some sanitized_target, some sanitized_link_name =>
        match select_base_path_with_other PATH_MAX realpath stat.is_dir user_ctx
            "Select the directory where the target file is located:".toList w2 with
        | (none, w3) => (none, w3)
        | (some target_base_path, w3) =>
          match select_base_path_with_other PATH_MAX realpath stat.is_dir user_ctx
              "Select the directory where the symbolic link will be created:".toList w3 with
          | (none, w4) => (none, w4)
          | (some link_base_path, w4) =>
            create_symbolic_link.issue PATH_MAX realpath stat user_ctx
              (PathRef.read user_ctx w4 target_base_path ++ '/' :: sanitized_target)
              (PathRef.read user_ctx w4 link_base_path ++ '/' :: sanitized_link_name) w4
      | _, _ => (none, w2.printf (.text "Invalid file or link name.".toList))

/-! ## The escaping loop of `append_to_file` -/

/-- The test `*src == '"' || *src == '\\' || *src == '$' || *src == '`'`. -/
def append_to_file.needs_escape (c : Char) : Bool :=
  c = '"' || c = '\\' || c = '$' || c = '\x60'

/-- The `while (*src && remaining_size > 0)` loop of `append_to_file`: `src` is
the text still to copy, `dst` what has been written to `escaped_text`;
`none` is the return after "Error: Escaped text is too long.". -/
def append_to_file.escape_loop : CStr → Nat → CStr → Option CStr
  | [], _, dst => some dst
  | c :: src, remaining_size, dst =>
    if remaining_size = 0 then some dst
    else if append_to_file.needs_escape c then
      if remaining_size < 2 then none
      else append_to_file.escape_loop src (remaining_size - 2) (dst ++ ['\\', c])
    else append_to_file.escape_loop src (remaining_size - 1) (dst ++ [c])

/-- The string left in `char escaped_text[2048]` by `append_to_file`, with
`remaining_size = sizeof(escaped_text) - 1` at the start. -/
def append_to_file.escaped_text (text : CStr) : Option CStr :=
  append_to_file.escape_loop text (2048 - 1) []

/-! ## Aliases and the menus -/

/-- Embedding of `struct Alias`. -/
structure Alias where
  name : CStr
  command : CStr
  deriving DecidableEq

/-- The global alias arrays (ten entries each) and their counts. -/
structure AliasTables where
  admin_aliases : List Alias
  admin_alias_count : Nat
  warehouse_aliases : List Alias
  warehouse_alias_count : Nat
  deriving DecidableEq

/-- The array behind an alias pointer. -/
def AliasTables.array (t : AliasTables) : AliasTable → List Alias
  | .admin_aliases => t.admin_aliases
  | .warehouse_aliases => t.warehouse_aliases

/-- The count behind a count pointer. -/
def AliasTables.count (t : AliasTables) : AliasTable → Nat
  | .admin_aliases => t.admin_alias_count
  | .warehouse_aliases => t.warehouse_alias_count

/-- The tables at program start: zeroed arrays, counts 0. -/
def AliasTables.initial : AliasTables :=
  { admin_aliases := List.replicate 10 { name := [], command := [] }
    admin_alias_count := 0
    warehouse_aliases := List.replicate 10 { name := [], command := [] }
    warehouse_alias_count := 0 }

/-- Writing `aliases[i]` through an alias pointer. -/
def AliasTables.store (t : AliasTables) (a : AliasTable) (i : Nat) (e : Alias) : AliasTables :=
  match a with
  | .admin_aliases => { t with admin_aliases := t.admin_aliases.set i e }
  | .warehouse_aliases => { t with warehouse_aliases := t.warehouse_aliases.set i e }

/-- The increment `(*alias_count)++` through a count pointer. -/
def AliasTables.increment (t : AliasTables) : AliasTable → AliasTables
  | .admin_aliases => { t with admin_alias_count := t.admin_alias_count + 1 }
  | .warehouse_aliases => { t with warehouse_alias_count := t.warehouse_alias_count + 1 }

/-- Embedding of `set_alias(user_ctx)`. The confirmation message is recorded
without its two format arguments. -/
def set_alias (user_ctx : UserContext) (t : AliasTables) (w : World) : AliasTables × World :=
  match user_ctx.aliases, user_ctx.alias_count with
  | some aliases, some alias_count =>
    match get_input "Enter alias name: ".toList 256 w with
    | (none, w1) => (t, w1.printf (.text "Error reading input.".toList))
    | (some alias_name, w1) =>
      match get_input "Enter command to associate with the alias: ".toList 256 w1 with
      | (none, w2) => (t, w2.printf (.text "Error reading input.".toList))
      | (some command, w2) =>
        if t.count alias_count < 10 then
          ((t.store aliases (t.count alias_count)
              { name := alias_name, command := command }).increment alias_count,
            w2.printf (.text "Alias set.".toList))
        else (t, w2.printf (.text "Alias limit reached.".toList))
  | _, _ => (t, w.printf (.text "Aliases not available for this user.".toList))

/-- The functions a menu or an alias can call. -/
inductive Callee
  | list_files
  | change_permissions
  | create_directory
  | delete_directory
  | create_file
  | delete_file
  | create_symbolic_link
  | copy_file
  | move_file
  | append_to_file
  | view_file_content
  | find_file
  | search_content
  | set_alias
  | use_alias
  deriving DecidableEq

/-- The search loop of `use_alias` over `aliases[0 .. *alias_count)`: the
command of the first entry whose name is `alias_name`. -/
def use_alias.find (alias_name : CStr) : List Alias → Option CStr
  | [] => none
  | e :: es => if e.name = alias_name then some e.command else use_alias.find alias_name es

/-- The `strcmp` chain of `use_alias` mapping the stored command to a function. -/
def use_alias.dispatch (command : CStr) : Option Callee :=
  if command = "list".toList then some .list_files
  else if command = "move".toList then some .move_file
  else if command = "append".toList then some .append_to_file
  else if command = "view".toList then some .view_file_content
  else if command = "create_dir".toList then some .create_directory
  else if command = "delete_dir".toList then some .delete_directory
  else if command = "create_file".toList then some .create_file
  else if command = "delete_file".toList then some .delete_file
  else if command = "copy".toList then some .copy_file
  else if command = "find".toList then some .find_file
  else if command = "search".toList then some .search_content
  else if command = "change_perms".toList then some .change_permissions
  else none

/-- Embedding of `use_alias(user_ctx)` up to the call it makes: the function
called with `user_ctx` (`none` when it returns without a call). The message
for an unknown command is recorded without its format argument. -/
def use_alias (user_ctx : UserContext) (t : AliasTables) (w : World) : Option Callee × World :=
  match user_ctx.aliases, user_ctx.alias_count with
  | some aliases, some alias_count =>
    match get_input "Enter alias to use: ".toList 256 w with
    | (none, w1) => (none, w1.printf (.text "Error reading input.".toList))
    | (some alias_name, w1) =>
      match use_alias.find alias_name ((t.array aliases).take (t.count alias_count)) with
      | none => (none, w1.printf (.text "Alias not found.".toList))
      | some command =>
        match use_alias.dispatch command with
        | some f => (some f, w1)
        | none => (none, w1.printf (.text "Command is not recognized.".toList))
  | _, _ => (none, w.printf (.text "Aliases not available for this user.".toList))

/-- One pass of the `switch` of `main_menu`. -/
inductive MenuStep
  | call (f : Callee)
  | logout
  | invalid_choice
  | invalid_user_type
  deriving DecidableEq

/-- The `switch (choice)` of `main_menu` for the role named by `user_type`. -/
def main_menu.switch (user_type : CStr) (choice : Int) : MenuStep :=
  if user_type = "admin".toList then
    if choice = 1 then .call .list_files
    else if choice = 2 then .call .change_permissions
    else if choice = 3 then .call .create_directory
    else if choice = 4 then .call .delete_directory
    else if choice = 5 then .call .create_file
    else if choice = 6 then .call .delete_file
    else if choice = 7 then .call .create_symbolic_link
    else if choice = 8 then .call .copy_file
    else if choice = 9 then .call .move_file
    else if choice = 10 then .call .append_to_file
    else if choice = 11 then .call .view_file_content
    else if choice = 12 then .call .find_file
    else if choice = 13 then .call .search_content
    else if choice = 14 then .call .set_alias
    else if choice = 15 then .call .use_alias
    else if choice = 16 then .logout
    else .invalid_choice
  else if user_type = "warehouse".toList then
    if choice = 1 then .call .list_files
    else if choice = 2 then .call .move_file
    else if choice = 3 then .call .view_file_content
    else if choice = 4 then .call .create_directory
    else if choice = 5 then .call .delete_directory
    else if choice = 6 then .call .create_file
    else if choice = 7 then .call .delete_file
    else if choice = 8 then .call .append_to_file
    else if choice = 9 then .call .set_alias
    else if choice = 10 then .call .use_alias
    else if choice = 11 then .logout
    else .invalid_choice
  else if user_type = "customer".toList then
    if choice = 1 then .call .list_files
    else if choice = 2 then .call .copy_file
    else if choice = 3 then .call .append_to_file
    else if choice = 4 then .call .view_file_content
    else if choice = 5 then .logout
    else .invalid_choice
  else .invalid_user_type

/-! ## The `mkdir -p` commands of `initialize_paths` -/

/-- The `UserContext` that `select_user_type` builds for the choice 2. -/
def ctxWarehouse (P : Paths) : UserContext :=
  { user_type := "warehouse".toList
    base_paths := P.warehouse_base_paths
    base_paths_count := 2
    aliases := some .warehouse_aliases
    alias_count := some .warehouse_aliases }

/-! ## More example file systems -/

/-- The text with one backslash before each character that needs escaping,
everything else unchanged and in order. -/
def escape_spec (text : CStr) : CStr :=
  text.flatMap (fun c => if append_to_file.needs_escape c then ['\\', c] else [c])

/-- A file system in which `/base/.` resolves, as it must, to `/base`. -/
def fsDot : Realpath := fsOf [("/base".toList, "/base".toList), ("/base/.".toList, "/base".toList)]

/-- The example roots with two subdirectories of `/warehouse`, each holding a
file `a.txt`. -/
def fsInOut : Realpath :=
  fsOf [("/admin".toList, "/admin".toList), ("/warehouse".toList, "/warehouse".toList),
    ("/customer".toList, "/customer".toList),
    ("/warehouse/in".toList, "/warehouse/in".toList),
    ("/warehouse/out".toList, "/warehouse/out".toList),
    ("/warehouse/in/a.txt".toList, "/warehouse/in/a.txt".toList),
    ("/warehouse/out/a.txt".toList, "/warehouse/out/a.txt".toList)]

/-- The `stat` view of `fsInOut`. -/
def statInOut : Stat := fun p =>
  if p = "/warehouse/in/a.txt".toList ∨ p = "/warehouse/out/a.txt".toList then
    some FileKind.regular
  else if (fsInOut p).isSome then some FileKind.directory else none

/-- A call on the root `/base` and the candidate `/base/newfile.txt` with
empty local buffers. -/
def memoryClean : PathMemory :=
  { base_paths := ["/base".toList], path := "/base/newfile.txt".toList,
    real_target := [], path_copy := [], real_base := [] }

/-- The same call with the local buffers holding left-overs. -/
def memoryDirty : PathMemory :=
  { base_paths := ["/base".toList], path := "/base/newfile.txt".toList,
    real_target := "/etc".toList, path_copy := "/tmp/x".toList, real_base := "/".toList }

/-- A file system that differs from `fsBase` only at `/elsewhere`. -/
def fsBaseElsewhere : Realpath :=
  fsOf [("/base".toList, "/base".toList), ("/elsewhere".toList, "/elsewhere".toList)]

/-- In the words of the claims: the selection made in state `w` succeeds
through "Other" and the directory selected is `dir`. The first line read
chooses the number `count + 1`, the second a listed root `p`, the third a
name `s` that passes `sanitize_filename`; `dir` is `p/s`, shorter than
`PATH_MAX`, accepted by `is_valid_path` and an existing directory. -/
def SelectedViaOther (PATH_MAX : Nat) (realpath : Realpath) (stat_is_dir : CStr → Bool)
    (roots : List CStr) (prompt : CStr) (w : World) (dir : CStr) : Prop :=
  ∃ (c0 : CStr) (w0 : World) (c : CStr) (w1 : World) (s : CStr) (w2 : World) (k : Nat)
      (p : CStr),
    get_input "Enter your choice: ".toList 10
      (select_base_path_with_other.menu (UserContext.of_roots roots) prompt w) = (some c0, w0) ∧
    atoi c0 = (roots.length : Int) + 1 ∧
    get_input "Enter your choice: ".toList 10
      (select_base_path_with_other.other_menu (UserContext.of_roots roots) w0) = (some c, w1) ∧
    atoi c = (k : Int) + 1 ∧ roots.get? k = some p ∧
    get_input "Enter the subdirectory path under selected base directory: ".toList 256 w1
      = (some s, w2) ∧
    (sanitize_filename s 256).isSome = true ∧
    dir = p ++ '/' :: s ∧ dir.length < PATH_MAX ∧
    is_valid_path PATH_MAX realpath roots dir = true ∧ stat_is_dir dir = true

/-- The input of the example copy: the names `a.txt` and `b.txt`, then
"Other", `/warehouse`, `in` for the source and "Other", `/warehouse`, `out`
for the destination. -/
def copyExample : World := World.start "a.txt\nb.txt\n4\n2\nin\n4\n2\nout\n".toList

/-- The example copy after its two names are read. -/
def copyExampleNamed : World :=
  (get_input "Enter destination file name: ".toList 256
    (get_input "Enter source file to copy: ".toList 256 copyExample).2).2

/-- The example copy after the source directory is selected. -/
def copyExampleSource : World :=
  (select_base_path_with_other 4096 fsInOut statInOut.is_dir (UserContext.of_roots rootsExample)
    "Select the directory where the source file is located:".toList copyExampleNamed).2

/-- The example copy after the destination directory is selected. -/
def copyExampleDestination : World :=
  (select_base_path_with_other 4096 fsInOut statInOut.is_dir (UserContext.of_roots rootsExample)
    "Select the directory where the destination file will be created:".toList
    copyExampleSource).2

/-! ## The specification's notions -/

/-- Boundary-prefix match in the words of the specification: the candidate
equals the root exactly or begins with the root followed by the separator. -/
def within_root (R T : CStr) : Prop := T = R ∨ R ++ ['/'] <+: T

instance (R T : CStr) : Decidable (within_root R T) := by
  unfold within_root
  infer_instance

/-- Parent of a path in the words of the specification: the path with its
final separator and the segment after it removed; undefined for a path
without a separator. -/
def strip_final_segment (path : CStr) : Option CStr :=
  if '/' ∈ path then some ((path.reverse.dropWhile (fun c => c != '/')).tail.reverse) else none

/-- Target of confinement in the words of the specification: the canonical
form of the candidate when it has one, otherwise that of its parent. -/
def confine_target (realpath : Realpath) (path : CStr) : Option CStr :=
  match realpath path with
  | some t => some t
  | none =>
    match strip_final_segment path with
    | none => none
    | some parent => realpath parent

/-! ## Lemmas on the string routines -/

theorem strncmp_eq_zero_iff (a b : CStr) (n : Nat) :
    strncmp a b n = 0 ↔ a.take n = b.take n := by
  induction n generalizing a b with
  | zero => simp [strncmp]
  | succ n ih =>
    cases a with
    | nil => cases b <;> simp [strncmp]
    | cons x xs =>
      cases b with
      | nil => simp [strncmp]
      | cons y ys =>
        by_cases h : x = y
        · simp [strncmp, h, ih]
        · by_cases h2 : x.toNat < y.toNat <;> simp [strncmp, h, h2]

theorem strchr_isSome_iff (s : CStr) (c : Char) : (strchr s c).isSome ↔ c ∈ s := by
  induction s with
  | nil => simp [strchr]
  | cons x xs ih =>
    by_cases h : x = c
    · simp [strchr, h]
    · have h2 : ¬ c = x := fun e => h e.symm
      simp [strchr, h, h2, ih]

theorem strrchr_eq_none_iff (s : CStr) (c : Char) : strrchr s c = none ↔ c ∉ s := by
  induction s with
  | nil => simp [strrchr]
  | cons x xs ih =>
    by_cases hm : c ∈ xs
    · have : strrchr xs c ≠ none := fun e => (ih.mp e) hm
      cases hs : strrchr xs c with
      | none => exact absurd hs this
      | some i => simp [strrchr, hs, hm]
    · have hs : strrchr xs c = none := ih.mpr hm
      by_cases h : x = c
      · simp [strrchr, hs, h]
      · have h2 : ¬ c = x := fun e => h e.symm
        simp [strrchr, hs, h, h2, hm]

theorem strrchr_append_cons (a b : CStr) (c : Char) (hb : c ∉ b) :
    strrchr (a ++ c :: b) c = some a.length := by
  induction a with
  | nil =>
    have hs : strrchr b c = none := (strrchr_eq_none_iff b c).mpr hb
    simp [strrchr, hs]
  | cons x xs ih => simp [strrchr, ih]

theorem strrchr_eq_some (s : CStr) (c : Char) (i : Nat) (h : strrchr s c = some i) :
    ∃ a b, s = a ++ c :: b ∧ a.length = i ∧ c ∉ b := by
  induction s generalizing i with
  | nil => simp [strrchr] at h
  | cons x xs ih =>
    cases hs : strrchr xs c with
    | some j =>
      obtain ⟨a, b, hab, hl, hb⟩ := ih j hs
      simp [strrchr, hs] at h
      exact ⟨x :: a, b, by simp [hab], by simp [hl, h], hb⟩
    | none =>
      by_cases hx : x = c
      · simp [strrchr, hs, hx] at h
        exact ⟨[], xs, by simp [hx], by simp [h], (strrchr_eq_none_iff xs c).mp hs⟩
      · simp [strrchr, hs, hx] at h

theorem strstr_isSome_iff (s needle : CStr) : (strstr s needle).isSome ↔ needle <:+: s := by
  induction s with
  | nil =>
    cases needle <;> simp [strstr]
  | cons x xs ih =>
    rw [List.infix_cons_iff]
    by_cases hp : needle <+: x :: xs
    · have : needle.isPrefixOf (x :: xs) = true := List.isPrefixOf_iff_prefix.mpr hp
      simp [strstr, this, hp]
    · have : needle.isPrefixOf (x :: xs) = false := by
        cases hq : needle.isPrefixOf (x :: xs) with
        | false => rfl
        | true => exact absurd (List.isPrefixOf_iff_prefix.mp hq) hp
      simp [strstr, this, hp, ih]

theorem strncpy_terminated_of_lt (s : CStr) (n : Nat) (h : s.length < n) :
    strncpy_terminated s n = s := by
  unfold strncpy_terminated
  exact List.take_of_length_le (by omega)

theorem byteAt_append (R s : CStr) : byteAt (R ++ s) R.length = s.head? := by
  induction R with
  | nil => cases s <;> simp [byteAt]
  | cons x xs ih => simpa [byteAt] using ih

theorem base_matches_iff (R T : CStr) :
    is_valid_path.base_matches R T = true ↔ within_root R T := by
  unfold is_valid_path.base_matches within_root strlen
  simp only [Bool.and_eq_true, beq_iff_eq, Bool.or_eq_true, strncmp_eq_zero_iff]
  constructor
  · rintro ⟨hp, hb⟩
    have hpre : R <+: T := List.prefix_iff_eq_take.mpr (by simpa using hp)
    obtain ⟨s, rfl⟩ := hpre
    rw [byteAt_append] at hb
    cases s with
    | nil => left; simp
    | cons c s =>
      right
      rcases hb with hb | hb
      · simp at hb
        subst hb
        exact ⟨s, by simp⟩
      · simp at hb
  · rintro (h | ⟨s, h⟩)
    · subst h
      have := byteAt_append T []
      simp only [List.append_nil] at this
      simp [this]
    · subst h
      have := byteAt_append R ('/' :: s)
      simp only [List.append_assoc, List.singleton_append]
      simp [this]

theorem loop_iff (realpath : Realpath) (T : CStr) (roots : List CStr) :
    is_valid_path.loop realpath T roots = true ↔
      ∃ r ∈ roots, ∃ R, realpath r = some R ∧ within_root R T := by
  induction roots with
  | nil => simp [is_valid_path.loop]
  | cons b bs ih =>
    cases hb : realpath b with
    | none => simp [is_valid_path.loop, hb, ih]
    | some R =>
      by_cases hm : is_valid_path.base_matches R T = true
      · have hw := (base_matches_iff R T).mp hm
        simp [is_valid_path.loop, hb, hm, hw]
      · have hw : ¬ within_root R T := fun h => hm ((base_matches_iff R T).mpr h)
        simp [is_valid_path.loop, hb, hm, hw, ih]

theorem strip_final_segment_append_cons (a b : CStr) (hb : '/' ∉ b) :
    strip_final_segment (a ++ '/' :: b) = some a := by
  unfold strip_final_segment
  have hmem : '/' ∈ a ++ '/' :: b := by simp
  rw [if_pos hmem]
  have hdw : (b.reverse ++ '/' :: a.reverse).dropWhile (fun c => c != '/') = '/' :: a.reverse := by
    rw [List.dropWhile_append_of_pos]
    · simp [List.dropWhile]
    · intro c hc
      have : c ∈ b := List.mem_reverse.mp hc
      have hne : c ≠ '/' := fun e => hb (e ▸ this)
      simp [hne]
  simp [hdw]

theorem strip_final_segment_eq (path : CStr) :
    strip_final_segment path = (strrchr path '/').map (fun i => path.take i) := by
  cases hs : strrchr path '/' with
  | none =>
    have := (strrchr_eq_none_iff path '/').mp hs
    simp [strip_final_segment, this]
  | some i =>
    obtain ⟨a, b, hab, hl, hb⟩ := strrchr_eq_some path '/' i hs
    subst hab
    rw [strip_final_segment_append_cons a b hb]
    simp [← hl]

/-! ## Lemmas on `is_valid_path` -/

theorem real_target_of_resolves (PATH_MAX : Nat) (realpath : Realpath) (path T : CStr)
    (h : realpath path = some T) :
    is_valid_path.real_target PATH_MAX realpath path = some T := by
  simp [is_valid_path.real_target, h]

theorem real_target_of_short (PATH_MAX : Nat) (realpath : Realpath) (path : CStr)
    (hempty : realpath [] = none) (hlen : path.length < PATH_MAX) :
    is_valid_path.real_target PATH_MAX realpath path = confine_target realpath path := by
  unfold is_valid_path.real_target confine_target
  cases hp : realpath path with
  | some t => rfl
  | none =>
    simp only [strncpy_terminated_of_lt path PATH_MAX hlen, strip_final_segment_eq]
    cases hs : strrchr path '/' with
    | none => rfl
    | some i =>
      cases i with
      | zero => simp [hempty]
      | succ j => simp

theorem real_target_cases (PATH_MAX : Nat) (realpath : Realpath) (path T : CStr)
    (h : is_valid_path.real_target PATH_MAX realpath path = some T) :
    realpath path = some T ∨
      (realpath path = none ∧ ∃ parent,
        strip_final_segment (path.take (PATH_MAX - 1)) = some parent ∧ parent ≠ [] ∧
          realpath parent = some T) := by
  unfold is_valid_path.real_target at h
  cases hp : realpath path with
  | some t =>
    left
    simpa [hp] using h
  | none =>
    right
    refine ⟨rfl, ?_⟩
    simp only [hp, strncpy_terminated] at h
    rw [strip_final_segment_eq]
    cases hs : strrchr (List.take (PATH_MAX - 1) path) '/' with
    | none => simp [hs] at h
    | some i =>
      cases i with
      | zero => simp [hs] at h
      | succ j =>
        simp only [hs] at h
        obtain ⟨a, b, hab, hl, -⟩ := strrchr_eq_some _ _ _ hs
        refine ⟨List.take (j + 1) (List.take (PATH_MAX - 1) path), rfl, ?_, h⟩
        rw [hab, ← hl]
        intro hnil
        have ha : a = [] := by simpa using hnil
        subst ha
        simp at hl

theorem is_valid_path_eq_true_iff (PATH_MAX : Nat) (realpath : Realpath) (roots : List CStr)
    (path : CStr) :
    is_valid_path PATH_MAX realpath roots path = true ↔
      ∃ T, is_valid_path.real_target PATH_MAX realpath path = some T ∧
        ∃ r ∈ roots, ∃ R, realpath r = some R ∧ within_root R T := by
  unfold is_valid_path
  cases ht : is_valid_path.real_target PATH_MAX realpath path with
  | none => simp
  | some T => simp [loop_iff]

theorem within_root_append_iff (R s : CStr) :
    within_root R (R ++ s) ↔ s = [] ∨ s.head? = some '/' := by
  unfold within_root
  cases s with
  | nil => simp
  | cons c s =>
    simp only [List.append_cancel_left_eq, List.head?_cons, Option.some.injEq]
    constructor
    · rintro (h | h)
      · have := congrArg List.length h
        simp at this
      · right
        have h2 : ['/'] <+: c :: s := (List.prefix_append_right_inj R).mp h
        exact (List.cons_prefix_cons.mp h2).1.symm
    · rintro (h | h)
      · simp at h
      · right
        subst h
        exact (List.prefix_append_right_inj R).mpr ⟨s, rfl⟩

theorem long_path_accepted (mid : CStr) (hmid : '/' ∉ mid) (hlen : mid.length = 4092) :
    is_valid_path 4096 fsB [['/', 'b']] (['/', 'b', '/'] ++ mid ++ ['/', 'x']) = true := by
  have hnone : fsB (['/', 'b', '/'] ++ mid ++ ['/', 'x']) = none := by simp [fsB, fsOf]
  have hcopy : strncpy_terminated (['/', 'b', '/'] ++ mid ++ ['/', 'x']) 4096
      = ['/', 'b'] ++ '/' :: mid := by
    unfold strncpy_terminated
    have hl : (['/', 'b', '/'] ++ mid).length = 4096 - 1 := by simp [hlen]
    rw [← hl, List.take_left']
    · simp
    · rfl
  have hr : strrchr (['/', 'b'] ++ '/' :: mid) '/' = some 2 :=
    strrchr_append_cons ['/', 'b'] mid '/' hmid
  have ht : is_valid_path.real_target 4096 fsB (['/', 'b', '/'] ++ mid ++ ['/', 'x'])
      = some ['/', 'b'] := by
    unfold is_valid_path.real_target
    simp only [hnone, hcopy, hr]
    simp [fsB, fsOf]
  rw [is_valid_path_eq_true_iff]
  exact ⟨['/', 'b'], ht, ['/', 'b'], by simp, ['/', 'b'], by simp [fsB, fsOf], Or.inl rfl⟩

theorem long_path_spec_target (mid : CStr) :
    fsB (['/', 'b', '/'] ++ mid ++ ['/', 'x']) = none ∧
    strip_final_segment (['/', 'b', '/'] ++ mid ++ ['/', 'x']) = some (['/', 'b', '/'] ++ mid) ∧
    fsB (['/', 'b', '/'] ++ mid) = none := by
  refine ⟨by simp [fsB, fsOf], ?_, by simp [fsB, fsOf]⟩
  have := strip_final_segment_append_cons (['/', 'b', '/'] ++ mid) ['x'] (by simp)
  simpa using this

theorem longPath_mid : '/' ∉ List.replicate 4092 'a' ∧ (List.replicate 4092 'a').length = 4092 := by
  refine ⟨fun h => ?_, List.length_replicate _ _⟩
  have := List.eq_of_mem_replicate h
  exact absurd this (by decide)

/-! ## Claims on `is_valid_path` -/

/-- Claim C1, as stated, fails: with `PATH_MAX = 4096`, the directory `/b`
the only existing path and `/b` the only root, `is_valid_path` returns 1 for
the 4097-byte path `/b/aaa...a/x`, although neither that path nor the path
with its final segment stripped (`/b/aaa...a`) resolves, so that no target
is obtained in the sense of the claim. -/
theorem is_valid_path_long_path_not_confined :
    fsB [] = none ∧
    is_valid_path 4096 fsB [['/', 'b']] longPath = true ∧
    ¬ ∃ T, confine_target fsB longPath = some T ∧
        ∃ r ∈ [['/', 'b']], ∃ R, fsB r = some R ∧ within_root R T := by
  refine ⟨by decide, long_path_accepted _ longPath_mid.1 longPath_mid.2, ?_⟩
  obtain ⟨h1, h2, h3⟩ := long_path_spec_target (List.replicate 4092 'a')
  have hnone : confine_target fsB longPath = none := by
    unfold confine_target longPath
    rw [h1]
    simp only [h2, h3]
  rintro ⟨T, hT, -⟩
  rw [hnone] at hT
  exact Option.noConfusion hT

/-- Claim C1, amended: for every path shorter than `PATH_MAX` (`realpath`
failing on the empty string), `is_valid_path(roots, path)` returns 1 if and
only if a target `T` is obtained (`realpath(path)` when that resolves,
otherwise `realpath` of `path` cut at its last `/`) and some root of `roots`
resolves to an `R` with `T = R` or `T` beginning with `R` followed by `/`. -/
theorem is_valid_path_iff_confined (PATH_MAX : Nat) (realpath : Realpath) (roots : List CStr)
    (path : CStr) (hempty : realpath [] = none) (hlen : path.length < PATH_MAX) :
    is_valid_path PATH_MAX realpath roots path = true ↔
      ∃ T, confine_target realpath path = some T ∧
        ∃ r ∈ roots, ∃ R, realpath r = some R ∧ within_root R T := by
  rw [is_valid_path_eq_true_iff, real_target_of_short PATH_MAX realpath path hempty hlen]

/-- Witness for claim C1: the nonexistent `/base/newfile.txt`
below the existing root `/base`. -/
theorem is_valid_path_iff_confined_witness :
    (fsBase [] = none ∧ "/base/newfile.txt".toList.length < 4096) ∧
    (is_valid_path 4096 fsBase ["/base".toList] "/base/newfile.txt".toList = true ↔
      ∃ T, confine_target fsBase "/base/newfile.txt".toList = some T ∧
        ∃ r ∈ ["/base".toList], ∃ R, fsBase r = some R ∧ within_root R T) :=
  ⟨⟨by decide, by decide⟩,
    is_valid_path_iff_confined 4096 fsBase ["/base".toList] "/base/newfile.txt".toList
      (by decide) (by decide)⟩

/-- Claim C2: a canonical root `R` does not match a canonical target `R ++ s`
with `s` non-empty and not starting with `/`, and `is_valid_path` with the
single root `r` resolving to `R` rejects every candidate with that target. In
particular, with the single root `/base` resolving to itself, the candidate
`/basefoo/x` (its target being itself or its parent `/basefoo`) and every
candidate whose target is `/base2` or below it are rejected, and the root
`/a/base` does not match `/a/basefoo`. -/
theorem sibling_prefix_rejected (PATH_MAX : Nat) (realpath : Realpath) (R s r path : CStr)
    (hs : s ≠ []) (hhead : s.head? ≠ some '/') :
    is_valid_path.base_matches R (R ++ s) = false ∧
    (realpath r = some R →
      is_valid_path.real_target PATH_MAX realpath path = some (R ++ s) →
      is_valid_path PATH_MAX realpath [r] path = false) ∧
    (realpath "/base".toList = some "/base".toList →
      (∀ T, is_valid_path.real_target PATH_MAX realpath "/basefoo/x".toList = some T →
        T = "/basefoo/x".toList ∨ T = "/basefoo".toList) →
      is_valid_path PATH_MAX realpath ["/base".toList] "/basefoo/x".toList = false) ∧
    (realpath "/base".toList = some "/base".toList →
      ∀ p T, is_valid_path.real_target PATH_MAX realpath p = some T →
        within_root "/base2".toList T →
        is_valid_path PATH_MAX realpath ["/base".toList] p = false) ∧
    is_valid_path.base_matches "/a/base".toList "/a/basefoo".toList = false := by
  have key : ∀ (R' s' : CStr), s' ≠ [] → s'.head? ≠ some '/' → ¬ within_root R' (R' ++ s') := by
    intro R' s' h1 h2 hw
    rcases (within_root_append_iff R' s').mp hw with h | h
    · exact h1 h
    · exact h2 h
  have single : ∀ (rp : Realpath) (r' R' p T : CStr), rp r' = some R' →
      is_valid_path.real_target PATH_MAX rp p = some T → ¬ within_root R' T →
      is_valid_path PATH_MAX rp [r'] p = false := by
    intro rp r' R' p T hr ht hw
    rw [Bool.eq_false_iff]
    intro htrue
    obtain ⟨T', hT', r'', hmem, R'', hR'', hw'⟩ := (is_valid_path_eq_true_iff _ _ _ _).mp htrue
    rw [ht] at hT'
    cases hT'
    rw [List.mem_singleton] at hmem
    subst hmem
    rw [hr] at hR''
    cases hR''
    exact hw hw'
  refine ⟨?_, ?_, ?_, ?_, by decide⟩
  · rw [Bool.eq_false_iff]
    intro h
    exact key R s hs hhead ((base_matches_iff _ _).mp h)
  · intro hr ht
    exact single realpath r R path (R ++ s) hr ht (key R s hs hhead)
  · intro hbase hcanon
    cases ht : is_valid_path.real_target PATH_MAX realpath "/basefoo/x".toList with
    | none =>
      unfold is_valid_path
      rw [ht]
    | some T =>
      apply single realpath _ _ _ T hbase ht
      rcases hcanon T ht with h | h
      · subst h
        exact key "/base".toList "foo/x".toList (by decide) (by decide)
      · subst h
        exact key "/base".toList "foo".toList (by decide) (by decide)
  · intro hbase p T ht hw
    apply single realpath _ _ _ T hbase ht
    rcases hw with h | ⟨t, h⟩
    · subst h
      exact key "/base".toList "2".toList (by decide) (by decide)
    · subst h
      exact key "/base".toList ("2/".toList ++ t) (by simp) (by simp)

/-- Witness for claim C2: root `/base`, existing candidate
`/basefoo/x`. -/
theorem sibling_prefix_rejected_witness :
    ("foo/x".toList ≠ [] ∧ "foo/x".toList.head? ≠ some '/') ∧
    is_valid_path.base_matches "/base".toList ("/base".toList ++ "foo/x".toList) = false ∧
    is_valid_path 4096 fsSibling ["/base".toList] "/basefoo/x".toList = false :=
  ⟨⟨by decide, by decide⟩,
    (sibling_prefix_rejected 4096 fsSibling "/base".toList "foo/x".toList "/base".toList
      "/basefoo/x".toList (by decide) (by decide)).1,
    (sibling_prefix_rejected 4096 fsSibling "/base".toList "foo/x".toList "/base".toList
      "/basefoo/x".toList (by decide) (by decide)).2.1 (by decide) (by decide)⟩

/-- Claim C3: a candidate whose `realpath` resolves to a location that is
neither equal to nor under, at a segment boundary, the canonical form of any
allowed root is rejected, whatever its textual form. -/
theorem is_valid_path_rejects_escape (PATH_MAX : Nat) (realpath : Realpath)
    (roots : List CStr) (path T : CStr) (hres : realpath path = some T)
    (hout : ∀ r ∈ roots, ∀ R, realpath r = some R → ¬ within_root R T) :
    is_valid_path PATH_MAX realpath roots path = false := by
  rw [Bool.eq_false_iff]
  intro htrue
  obtain ⟨T', hT', r, hmem, R, hR, hw⟩ := (is_valid_path_eq_true_iff _ _ _ _).mp htrue
  rw [real_target_of_resolves PATH_MAX realpath path T hres] at hT'
  cases hT'
  exact hout r hmem R hR hw

/-- Witness for claim C3: `/base/link` is a symbolic link
to `/etc`, so `/base/link/passwd`, which textually begins with the root
`/base` followed by `/`, resolves to `/etc/passwd` and is rejected. -/
theorem is_valid_path_rejects_escape_witness :
    ("/base/".toList <+: "/base/link/passwd".toList ∧
      fsLink "/base/link/passwd".toList = some "/etc/passwd".toList ∧
      ∀ r ∈ ["/base".toList], ∀ R, fsLink r = some R → ¬ within_root R "/etc/passwd".toList) ∧
    is_valid_path 4096 fsLink ["/base".toList] "/base/link/passwd".toList = false :=
  have hout : ∀ r ∈ ["/base".toList], ∀ R, fsLink r = some R →
      ¬ within_root R "/etc/passwd".toList := by
    intro r hr R hR
    rw [List.mem_singleton] at hr
    subst hr
    rw [show fsLink "/base".toList = some "/base".toList by decide] at hR
    cases hR
    decide
  ⟨⟨by decide, by decide, hout⟩,
    is_valid_path_rejects_escape 4096 fsLink ["/base".toList] "/base/link/passwd".toList
      "/etc/passwd".toList (by decide) hout⟩

/-- Claim C4: for an allowed root `b` that exists (`realpath` resolves it,
and fails on the empty string) and a single segment `n` such that `b/n` does
not exist and is shorter than `PATH_MAX`, `is_valid_path` accepts `b/n`, and
does so through the parent: its target is the canonical form of `b`. -/
theorem is_valid_path_accepts_new_child (PATH_MAX : Nat) (realpath : Realpath)
    (roots : List CStr) (b n R : CStr) (hempty : realpath [] = none) (hb : b ∈ roots)
    (hR : realpath b = some R) (hn : '/' ∉ n) (hnew : realpath (b ++ '/' :: n) = none)
    (hlen : (b ++ '/' :: n).length < PATH_MAX) :
    is_valid_path.real_target PATH_MAX realpath (b ++ '/' :: n) = some R ∧
    is_valid_path PATH_MAX realpath roots (b ++ '/' :: n) = true := by
  have ht : is_valid_path.real_target PATH_MAX realpath (b ++ '/' :: n) = some R := by
    rw [real_target_of_short PATH_MAX realpath _ hempty hlen]
    unfold confine_target
    rw [hnew]
    simp only [strip_final_segment_append_cons b n hn, hR]
  refine ⟨ht, ?_⟩
  rw [is_valid_path_eq_true_iff]
  exact ⟨R, ht, b, hb, R, hR, Or.inl rfl⟩

/-- Witness for claim C4: the nonexistent
`/base/newfile.txt` with `/base` an allowed, existing root. -/
theorem is_valid_path_accepts_new_child_witness :
    (fsBase [] = none ∧ "/base".toList ∈ ["/base".toList] ∧
      fsBase "/base".toList = some "/base".toList ∧ '/' ∉ "newfile.txt".toList ∧
      fsBase "/base/newfile.txt".toList = none ∧ "/base/newfile.txt".toList.length < 4096) ∧
    is_valid_path 4096 fsBase ["/base".toList] "/base/newfile.txt".toList = true :=
  ⟨⟨by decide, by decide, by decide, by decide, by decide, by decide⟩,
    (is_valid_path_accepts_new_child 4096 fsBase ["/base".toList] "/base".toList
      "newfile.txt".toList "/base".toList (by decide) (by decide) (by decide) (by decide)
      (by decide) (by decide)).2⟩

/-- Claim C5, as stated, fails: with `PATH_MAX = 4096` and `/b` the only
existing path, the 4097-byte candidate `/b/aaa...a/x` does not canonicalize,
the candidate with its final segment stripped (`/b/aaa...a`) does not
canonicalize either, and `is_valid_path` returns 1 for the root list `[/b]`. -/
theorem is_valid_path_long_path_parent_unresolved :
    fsB longPath = none ∧
    (∃ parent, strip_final_segment longPath = some parent ∧ fsB parent = none) ∧
    is_valid_path 4096 fsB [['/', 'b']] longPath = true := by
  obtain ⟨h1, h2, h3⟩ := long_path_spec_target (List.replicate 4092 'a')
  exact ⟨h1, ⟨_, h2, h3⟩, long_path_accepted _ longPath_mid.1 longPath_mid.2⟩

/-- Claim C5, amended: for every candidate shorter than `PATH_MAX` that does
not canonicalize, if the candidate has no separator to strip, or the
candidate with its final segment stripped also fails to canonicalize, then no
target is obtained and `is_valid_path` returns 0 for every list of roots. -/
theorem is_valid_path_unresolvable_parent (PATH_MAX : Nat) (realpath : Realpath) (path : CStr)
    (hlen : path.length < PATH_MAX) (hnone : realpath path = none)
    (hparent : strip_final_segment path = none ∨
      ∃ parent, strip_final_segment path = some parent ∧ realpath parent = none) :
    is_valid_path.real_target PATH_MAX realpath path = none ∧
    ∀ roots, is_valid_path PATH_MAX realpath roots path = false := by
  have ht : is_valid_path.real_target PATH_MAX realpath path = none := by
    unfold is_valid_path.real_target
    rw [hnone]
    simp only [strncpy_terminated_of_lt path PATH_MAX hlen]
    rw [strip_final_segment_eq] at hparent
    cases hs : strrchr path '/' with
    | none => rfl
    | some i =>
      cases i with
      | zero => rfl
      | succ j =>
        rcases hparent with h | ⟨parent, h1, h2⟩
        · simp [hs] at h
        · simp only [hs, Option.map_some', Option.some.injEq] at h1
          subst h1
          exact h2
  refine ⟨ht, fun roots => ?_⟩
  unfold is_valid_path
  rw [ht]

/-- Witness for claim C5: `/base/missing/new.txt`
when only `/base` exists (the parent `/base/missing` does not resolve). -/
theorem is_valid_path_unresolvable_parent_witness :
    ("/base/missing/new.txt".toList.length < 4096 ∧
      fsBase "/base/missing/new.txt".toList = none ∧
      strip_final_segment "/base/missing/new.txt".toList = some "/base/missing".toList ∧
      fsBase "/base/missing".toList = none) ∧
    is_valid_path 4096 fsBase ["/base".toList] "/base/missing/new.txt".toList = false :=
  ⟨⟨by decide, by decide, by decide, by decide⟩,
    (is_valid_path_unresolvable_parent 4096 fsBase "/base/missing/new.txt".toList (by decide)
      (by decide) (Or.inr ⟨"/base/missing".toList, by decide, by decide⟩)).2 ["/base".toList]⟩

/-- Claim C6, as stated, fails: `is_valid_path` approves `/base/newfile.txt`
below the existing root `/base` although that candidate has no canonical
form of its own (it does not exist). -/
theorem is_valid_path_approves_nonexistent :
    is_valid_path 4096 fsBase ["/base".toList] "/base/newfile.txt".toList = true ∧
    ¬ ∃ T, fsBase "/base/newfile.txt".toList = some T ∧
        ∃ r ∈ ["/base".toList], ∃ R, fsBase r = some R ∧ within_root R T := by
  refine ⟨by decide, ?_⟩
  rintro ⟨T, hT, -⟩
  rw [show fsBase "/base/newfile.txt".toList = none by decide] at hT
  cases hT

/-- Claim C6, amended: every candidate that `is_valid_path` approves has a
canonical target inside one of the allowed roots, the target being the
canonical form of the candidate itself or, when the candidate has none, the
canonical form of its parent (the first `PATH_MAX - 1` bytes of the candidate
cut at their last `/`, not empty): the target equals a canonical root or lies
under one at a segment boundary. -/
theorem is_valid_path_sound (PATH_MAX : Nat) (realpath : Realpath) (roots : List CStr)
    (path : CStr) (h : is_valid_path PATH_MAX realpath roots path = true) :
    ∃ T, (realpath path = some T ∨
        (realpath path = none ∧ ∃ parent,
          strip_final_segment (path.take (PATH_MAX - 1)) = some parent ∧ parent ≠ [] ∧
            realpath parent = some T)) ∧
      ∃ r ∈ roots, ∃ R, realpath r = some R ∧ within_root R T := by
  obtain ⟨T, hT, hroot⟩ := (is_valid_path_eq_true_iff _ _ _ _).mp h
  exact ⟨T, real_target_cases PATH_MAX realpath path T hT, hroot⟩

/-- Witness for claim C6: the approved candidate
`/base/newfile.txt`, whose target is the canonical form of its parent. -/
theorem is_valid_path_sound_witness :
    is_valid_path 4096 fsBase ["/base".toList] "/base/newfile.txt".toList = true ∧
    ∃ T, (fsBase "/base/newfile.txt".toList = some T ∨
        (fsBase "/base/newfile.txt".toList = none ∧ ∃ parent,
          strip_final_segment ("/base/newfile.txt".toList.take (4096 - 1)) = some parent ∧
            parent ≠ [] ∧ fsBase parent = some T)) ∧
      ∃ r ∈ ["/base".toList], ∃ R, fsBase r = some R ∧ within_root R T :=
  ⟨by decide,
    is_valid_path_sound 4096 fsBase ["/base".toList] "/base/newfile.txt".toList (by decide)⟩

theorem within_root_prefix (X T : CStr) (h : within_root X T) : X ++ ['/'] <+: T ++ ['/'] := by
  rcases h with h | h
  · subst h
    exact List.prefix_refl _
  · exact h.trans (List.prefix_append T ['/'])

theorem within_root_disjoint (L a b T : CStr) (ha : within_root (L ++ a) T)
    (hb : within_root (L ++ b) T) (hab : ¬ a ++ ['/'] <+: b ++ ['/'])
    (hba : ¬ b ++ ['/'] <+: a ++ ['/']) : False := by
  have h1 := within_root_prefix _ _ ha
  have h2 := within_root_prefix _ _ hb
  rw [List.append_assoc] at h1 h2
  rcases List.prefix_or_prefix_of_prefix h1 h2 with h | h
  · exact hab ((List.prefix_append_right_inj L).mp h)
  · exact hba ((List.prefix_append_right_inj L).mp h)

theorem initialize_paths_eq_some (PATH_MAX : Nat) (getcwd : Option CStr) (P : Paths)
    (h : initialize_paths PATH_MAX getcwd = some P) :
    ∃ L, P.LOGISTICS_BASE_PATH = L ∧
      P.ADMIN_BASE_PATH = L ++ "/admin".toList ∧
      P.WAREHOUSE_BASE_PATH = L ++ "/warehouse".toList ∧
      P.CUSTOMER_BASE_PATH = L ++ "/customers".toList ∧
      P.admin_base_paths = [P.ADMIN_BASE_PATH, P.WAREHOUSE_BASE_PATH, P.CUSTOMER_BASE_PATH] ∧
      P.warehouse_base_paths = [P.WAREHOUSE_BASE_PATH, P.CUSTOMER_BASE_PATH] ∧
      P.customer_base_paths = [P.CUSTOMER_BASE_PATH] := by
  unfold initialize_paths at h
  cases getcwd with
  | none => cases h
  | some d =>
    simp only at h
    split_ifs at h
    cases h
    exact ⟨_, rfl, rfl, rfl, rfl, rfl, rfl, rfl⟩

/-- Claim C7: after `initialize_paths`, with the role roots resolving to
themselves (for the admin root this is not even needed),
`is_valid_path` with the customer root list rejects every
candidate whose canonical target lies under the admin root or the warehouse
root, and with the warehouse root list rejects every candidate whose
canonical target lies under the admin root. -/
theorem role_confinement (PATH_MAX : Nat) (realpath : Realpath) (getcwd : Option CStr)
    (P : Paths) (path T : CStr) (hinit : initialize_paths PATH_MAX getcwd = some P)
    (hW : realpath P.WAREHOUSE_BASE_PATH = some P.WAREHOUSE_BASE_PATH)
    (hC : realpath P.CUSTOMER_BASE_PATH = some P.CUSTOMER_BASE_PATH)
    (hT : is_valid_path.real_target PATH_MAX realpath path = some T) :
    ((within_root P.ADMIN_BASE_PATH T ∨ within_root P.WAREHOUSE_BASE_PATH T) →
      is_valid_path PATH_MAX realpath P.customer_base_paths path = false) ∧
    (within_root P.ADMIN_BASE_PATH T →
      is_valid_path PATH_MAX realpath P.warehouse_base_paths path = false) := by
  obtain ⟨L, -, eA, eW, eC, -, eWs, eCs⟩ := initialize_paths_eq_some _ _ _ hinit
  have hAC : within_root P.ADMIN_BASE_PATH T → within_root P.CUSTOMER_BASE_PATH T → False := by
    rw [eA, eC]
    intro h1 h2
    exact within_root_disjoint L _ _ T h1 h2 (by decide) (by decide)
  have hWC : within_root P.WAREHOUSE_BASE_PATH T → within_root P.CUSTOMER_BASE_PATH T → False := by
    rw [eW, eC]
    intro h1 h2
    exact within_root_disjoint L _ _ T h1 h2 (by decide) (by decide)
  have hAW : within_root P.ADMIN_BASE_PATH T → within_root P.WAREHOUSE_BASE_PATH T → False := by
    rw [eA, eW]
    intro h1 h2
    exact within_root_disjoint L _ _ T h1 h2 (by decide) (by decide)
  constructor
  · intro hunder
    rw [Bool.eq_false_iff]
    intro htrue
    obtain ⟨T', hT', r, hmem, R, hR, hw⟩ := (is_valid_path_eq_true_iff _ _ _ _).mp htrue
    rw [hT] at hT'
    cases hT'
    rw [eCs, List.mem_singleton] at hmem
    subst hmem
    rw [hC] at hR
    cases hR
    rcases hunder with h | h
    · exact hAC h hw
    · exact hWC h hw
  · intro hunder
    rw [Bool.eq_false_iff]
    intro htrue
    obtain ⟨T', hT', r, hmem, R, hR, hw⟩ := (is_valid_path_eq_true_iff _ _ _ _).mp htrue
    rw [hT] at hT'
    cases hT'
    rw [eWs] at hmem
    simp only [List.mem_cons, List.mem_singleton, List.not_mem_nil, or_false] at hmem
    rcases hmem with hmem | hmem
    · subst hmem
      rw [hW] at hR
      cases hR
      exact hAW hunder hw
    · subst hmem
      rw [hC] at hR
      cases hR
      exact hAC hunder hw

/-- Witness for claim C7: started in `/srv`, a customer asking for the
new file `/srv/logistics/admin/secret.txt`, whose target is the admin root. -/
theorem role_confinement_witness :
    (initialize_paths 4096 (some "/srv".toList) = some pathsSrv ∧
      fsRoles pathsSrv.WAREHOUSE_BASE_PATH = some pathsSrv.WAREHOUSE_BASE_PATH ∧
      fsRoles pathsSrv.CUSTOMER_BASE_PATH = some pathsSrv.CUSTOMER_BASE_PATH ∧
      is_valid_path.real_target 4096 fsRoles "/srv/logistics/admin/secret.txt".toList
        = some "/srv/logistics/admin".toList ∧
      within_root pathsSrv.ADMIN_BASE_PATH "/srv/logistics/admin".toList) ∧
    is_valid_path 4096 fsRoles pathsSrv.customer_base_paths
      "/srv/logistics/admin/secret.txt".toList = false ∧
    is_valid_path 4096 fsRoles pathsSrv.warehouse_base_paths
      "/srv/logistics/admin/secret.txt".toList = false :=
  ⟨⟨by decide, by decide, by decide, by decide, by decide⟩,
    (role_confinement 4096 fsRoles (some "/srv".toList) pathsSrv
      "/srv/logistics/admin/secret.txt".toList "/srv/logistics/admin".toList (by decide)
      (by decide) (by decide) (by decide)).1 (Or.inl (by decide)),
    (role_confinement 4096 fsRoles (some "/srv".toList) pathsSrv
      "/srv/logistics/admin/secret.txt".toList "/srv/logistics/admin".toList (by decide)
      (by decide) (by decide) (by decide)).2 (by decide)⟩

/-! ## Claims on `sanitize_filename` -/

theorem byteAt_zero (s : CStr) : byteAt s 0 = s.head? := by
  cases s <;> rfl

theorem sanitize_filename_eq (raw : CStr) (max_len : Nat) :
    sanitize_filename raw max_len =
      if raw = [] ∨ raw.head? = some '/' ∨ ['.', '.'] <:+: raw ∨ '/' ∈ raw ∨ '\\' ∈ raw ∨
          max_len ≤ raw.length then none else some raw := by
  unfold sanitize_filename
  rw [byteAt_zero]
  by_cases h1 : raw = []
  · simp [h1]
  have h1' : raw.head? ≠ none := by
    cases raw with
    | nil => exact absurd rfl h1
    | cons c cs => simp
  rw [if_neg h1']
  by_cases h2 : raw.head? = some '/'
  · simp [h2]
  rw [if_neg h2]
  by_cases h3 : ['.', '.'] <:+: raw
  · have := (strstr_isSome_iff raw ['.', '.']).mpr h3
    simp [this, h3]
  by_cases h4 : '/' ∈ raw
  · have := (strchr_isSome_iff raw '/').mpr h4
    simp [this, h4]
  by_cases h5 : '\\' ∈ raw
  · have := (strchr_isSome_iff raw '\\').mpr h5
    simp [this, h5]
  have e3 : (strstr raw ['.', '.']).isSome = false := by
    rw [Bool.eq_false_iff]
    exact fun h => h3 ((strstr_isSome_iff raw _).mp h)
  have e4 : (strchr raw '/').isSome = false := by
    rw [Bool.eq_false_iff]
    exact fun h => h4 ((strchr_isSome_iff raw _).mp h)
  have e5 : (strchr raw '\\').isSome = false := by
    rw [Bool.eq_false_iff]
    exact fun h => h5 ((strchr_isSome_iff raw _).mp h)
  rw [e3, e4, e5]
  by_cases h6 : max_len ≤ raw.length
  · simp [strlen, h6]
  · have hlt : raw.length < max_len := by omega
    simp [strlen, h1, h2, h3, h4, h5, h6, strncpy_terminated_of_lt raw max_len hlt]

/-- Claim C8: `sanitize_filename(raw, out, max_len)` returns 0 exactly when
`raw` is empty, or begins with `/`, or contains `..`, or contains `/` or `\`
anywhere, or has length `>= max_len`; for every other input it returns 1. -/
theorem sanitize_filename_rejects_iff (raw : CStr) (max_len : Nat) :
    (sanitize_filename raw max_len = none ↔
      raw = [] ∨ raw.head? = some '/' ∨ ['.', '.'] <:+: raw ∨ '/' ∈ raw ∨ '\\' ∈ raw ∨
        max_len ≤ raw.length) ∧
    ((sanitize_filename raw max_len).isSome = true ↔
      ¬ (raw = [] ∨ raw.head? = some '/' ∨ ['.', '.'] <:+: raw ∨ '/' ∈ raw ∨ '\\' ∈ raw ∨
        max_len ≤ raw.length)) := by
  rw [sanitize_filename_eq]
  constructor <;> split_ifs with h <;> simp [h]

/-- Claim C9: every string that contains `..`, or has a leading separator, or
has an embedded separator (`/` or `\`) is rejected by `sanitize_filename`,
for every `max_len`. -/
theorem sanitize_filename_rejects_traversal (raw : CStr) (max_len : Nat)
    (h : ['.', '.'] <:+: raw ∨ raw.head? = some '/' ∨ raw.head? = some '\\' ∨ '/' ∈ raw ∨
      '\\' ∈ raw) :
    sanitize_filename raw max_len = none := by
  rw [sanitize_filename_eq, if_pos]
  rcases h with h | h | h | h | h
  · exact Or.inr (Or.inr (Or.inl h))
  · exact Or.inr (Or.inl h)
  · exact Or.inr (Or.inr (Or.inr (Or.inr (Or.inl (List.mem_of_mem_head? h)))))
  · exact Or.inr (Or.inr (Or.inr (Or.inl h)))
  · exact Or.inr (Or.inr (Or.inr (Or.inr (Or.inl h))))

/-- Witness for claim C9: the name `../etc` with
the buffer size 256. -/
theorem sanitize_filename_rejects_traversal_witness :
    ['.', '.'] <:+: "../etc".toList ∧ sanitize_filename "../etc".toList 256 = none :=
  ⟨by decide,
    sanitize_filename_rejects_traversal "../etc".toList 256 (Or.inl (by decide))⟩

/-- Claim C10: every string of length `>= max_len` is rejected by
`sanitize_filename`; every string of length exactly `max_len - 1`
(`max_len >= 2`) that contains no `..`, `/` or `\` is accepted and the output
equals the input. -/
theorem sanitize_filename_length_boundary (raw : CStr) (max_len : Nat) :
    (max_len ≤ raw.length → sanitize_filename raw max_len = none) ∧
    (2 ≤ max_len → raw.length = max_len - 1 → ¬ ['.', '.'] <:+: raw → '/' ∉ raw →
      '\\' ∉ raw → sanitize_filename raw max_len = some raw) := by
  rw [sanitize_filename_eq]
  constructor
  · intro h
    rw [if_pos]
    exact Or.inr (Or.inr (Or.inr (Or.inr (Or.inr h))))
  · intro h2 hl h3 h4 h5
    rw [if_neg]
    rintro (h | h | h | h | h | h)
    · subst h
      simp at hl
      omega
    · exact h4 (List.mem_of_mem_head? h)
    · exact h3 h
    · exact h4 h
    · exact h5 h
    · omega

/-- Witness for claim C10: with `max_len = 4`, the
4-byte name `abcd` is rejected and the 3-byte name `abc` is returned
unchanged. -/
theorem sanitize_filename_length_boundary_witness :
    (4 ≤ "abcd".toList.length ∧ sanitize_filename "abcd".toList 4 = none) ∧
    ((2 ≤ 4 ∧ "abc".toList.length = 4 - 1 ∧ ¬ ['.', '.'] <:+: "abc".toList ∧
        '/' ∉ "abc".toList ∧ '\\' ∉ "abc".toList) ∧
      sanitize_filename "abc".toList 4 = some "abc".toList) :=
  ⟨⟨by decide, (sanitize_filename_length_boundary "abcd".toList 4).1 (by decide)⟩,
    ⟨by decide, by decide, by decide, by decide, by decide⟩,
    (sanitize_filename_length_boundary "abc".toList 4).2 (by decide) (by decide) (by decide)
      (by decide) (by decide)⟩

/-- Claim C11: whenever `sanitize_filename` succeeds, the string left in the
output buffer is the input verbatim: the same characters, the same length. -/
theorem sanitize_filename_verbatim (raw out : CStr) (size : Nat)
    (h : sanitize_filename raw size = some out) :
    out = raw ∧ strlen out = strlen raw := by
  rw [sanitize_filename_eq] at h
  split_ifs at h
  cases h
  exact ⟨rfl, rfl⟩

/-- Witness for claim C11: the name `report.txt` with the buffer size 256. -/
theorem sanitize_filename_verbatim_witness :
    sanitize_filename "report.txt".toList 256 = some "report.txt".toList ∧
    ("report.txt".toList = "report.txt".toList ∧
      strlen "report.txt".toList = strlen "report.txt".toList) :=
  ⟨by decide,
    sanitize_filename_verbatim "report.txt".toList "report.txt".toList 256 (by decide)⟩

/-- Claim C12: every name produced by a successful `sanitize_filename` call
with the buffer size 256 is non-empty, contains no `/` and no `\`, contains no
`..`, and is at most 256 bytes long, in fact at most 255. -/
theorem sanitized_name_invariant (raw out : CStr) (h : sanitize_filename raw 256 = some out) :
    out ≠ [] ∧ '/' ∉ out ∧ '\\' ∉ out ∧ ¬ ['.', '.'] <:+: out ∧ strlen out ≤ 256 ∧
      strlen out ≤ 255 := by
  rw [sanitize_filename_eq] at h
  split_ifs at h with hc
  cases h
  have h1 : ¬ raw = [] := fun e => hc (Or.inl e)
  have h3 : ¬ ['.', '.'] <:+: raw := fun e => hc (Or.inr (Or.inr (Or.inl e)))
  have h4 : '/' ∉ raw := fun e => hc (Or.inr (Or.inr (Or.inr (Or.inl e))))
  have h5 : '\\' ∉ raw := fun e => hc (Or.inr (Or.inr (Or.inr (Or.inr (Or.inl e)))))
  have h6 : ¬ 256 ≤ raw.length := fun e => hc (Or.inr (Or.inr (Or.inr (Or.inr (Or.inr e)))))
  unfold strlen
  exact ⟨h1, h4, h5, h3, by omega, by omega⟩

/-- Witness for claim C12: the name `report.txt`. -/
theorem sanitized_name_invariant_witness :
    sanitize_filename "report.txt".toList 256 = some "report.txt".toList ∧
    ("report.txt".toList ≠ [] ∧ '/' ∉ "report.txt".toList ∧ '\\' ∉ "report.txt".toList ∧
      ¬ ['.', '.'] <:+: "report.txt".toList ∧ strlen "report.txt".toList ≤ 256 ∧
      strlen "report.txt".toList ≤ 255) :=
  ⟨by decide, sanitized_name_invariant "report.txt".toList "report.txt".toList (by decide)⟩

/-! ## Claims on the role table and on start-up -/

/-- Claim C18: after `initialize_paths`, `select_user_type` hands out the
root lists Admin = [admin, warehouse, customer] with count 3, Warehouse =
[warehouse, customer] with count 2 and Customer = [customer] with count 1;
each count is the length of its list, and Admin's roots include Warehouse's,
which include Customer's. -/
theorem role_table (PATH_MAX : Nat) (getcwd : Option CStr) (P : Paths)
    (hinit : initialize_paths PATH_MAX getcwd = some P) :
    ∃ admin warehouse customer,
      select_user_type.user_ctx P 1 = some admin ∧
      select_user_type.user_ctx P 2 = some warehouse ∧
      select_user_type.user_ctx P 3 = some customer ∧
      admin.base_paths = [P.ADMIN_BASE_PATH, P.WAREHOUSE_BASE_PATH, P.CUSTOMER_BASE_PATH] ∧
      admin.base_paths_count = 3 ∧
      warehouse.base_paths = [P.WAREHOUSE_BASE_PATH, P.CUSTOMER_BASE_PATH] ∧
      warehouse.base_paths_count = 2 ∧
      customer.base_paths = [P.CUSTOMER_BASE_PATH] ∧
      customer.base_paths_count = 1 ∧
      admin.base_paths_count = admin.base_paths.length ∧
      warehouse.base_paths_count = warehouse.base_paths.length ∧
      customer.base_paths_count = customer.base_paths.length ∧
      customer.base_paths ⊆ warehouse.base_paths ∧
      warehouse.base_paths ⊆ admin.base_paths := by
  obtain ⟨L, -, -, -, -, eAs, eWs, eCs⟩ := initialize_paths_eq_some _ _ _ hinit
  refine ⟨_, _, _, rfl, rfl, rfl, eAs, rfl, eWs, rfl, eCs, rfl, ?_, ?_, ?_, ?_, ?_⟩
  · show 3 = P.admin_base_paths.length
    rw [eAs]
    rfl
  · show 2 = P.warehouse_base_paths.length
    rw [eWs]
    rfl
  · show 1 = P.customer_base_paths.length
    rw [eCs]
    rfl
  · show P.customer_base_paths ⊆ P.warehouse_base_paths
    rw [eCs, eWs]
    intro x hx
    simp only [List.mem_singleton] at hx
    simp [hx]
  · show P.warehouse_base_paths ⊆ P.admin_base_paths
    rw [eWs, eAs]
    intro x hx
    simp only [List.mem_cons, List.mem_singleton, List.not_mem_nil, or_false] at hx
    rcases hx with hx | hx <;> simp [hx]

/-- Witness for claim C18: a process started in `/srv`. -/
theorem role_table_witness :
    initialize_paths 4096 (some "/srv".toList) = some pathsSrv ∧
    ∃ admin warehouse customer,
      select_user_type.user_ctx pathsSrv 1 = some admin ∧
      select_user_type.user_ctx pathsSrv 2 = some warehouse ∧
      select_user_type.user_ctx pathsSrv 3 = some customer ∧
      admin.base_paths = [pathsSrv.ADMIN_BASE_PATH, pathsSrv.WAREHOUSE_BASE_PATH,
        pathsSrv.CUSTOMER_BASE_PATH] ∧
      admin.base_paths_count = 3 ∧
      warehouse.base_paths = [pathsSrv.WAREHOUSE_BASE_PATH, pathsSrv.CUSTOMER_BASE_PATH] ∧
      warehouse.base_paths_count = 2 ∧
      customer.base_paths = [pathsSrv.CUSTOMER_BASE_PATH] ∧
      customer.base_paths_count = 1 ∧
      admin.base_paths_count = admin.base_paths.length ∧
      warehouse.base_paths_count = warehouse.base_paths.length ∧
      customer.base_paths_count = customer.base_paths.length ∧
      customer.base_paths ⊆ warehouse.base_paths ∧
      warehouse.base_paths ⊆ admin.base_paths :=
  ⟨by decide, role_table 4096 (some "/srv".toList) pathsSrv (by decide)⟩

theorem initialize_paths_eq_none_iff (PATH_MAX : Nat) (getcwd : Option CStr) :
    initialize_paths PATH_MAX getcwd = none ↔
      getcwd = none ∨ ∃ d, getcwd = some d ∧
        (PATH_MAX ≤ (d ++ "/logistics".toList).length ∨
         PATH_MAX ≤ (d ++ "/logistics".toList ++ "/admin".toList).length ∨
         PATH_MAX ≤ (d ++ "/logistics".toList ++ "/warehouse".toList).length ∨
         PATH_MAX ≤ (d ++ "/logistics".toList ++ "/customers".toList).length) := by
  unfold initialize_paths
  cases getcwd with
  | none => simp
  | some d =>
    have e1 : (d ++ "/logistics".toList).length = d.length + 10 := by simp
    have e2 : (d ++ "/logistics".toList ++ "/admin".toList).length = d.length + 16 := by simp
    have e3 : (d ++ "/logistics".toList ++ "/warehouse".toList).length = d.length + 20 := by
      simp
    have e4 : (d ++ "/logistics".toList ++ "/customers".toList).length = d.length + 20 := by
      simp
    simp only [ge_iff_le, false_or, Option.some.injEq, exists_eq_left', e1, e2, e3, e4]
    split_ifs with h1 h2 h3
    · simp [h1]
    · simp [h2]
    · simp [h3]
    · simp
      omega

/-- Claim C19, as stated, fails: started in `/srv` with every `mkdir -p`
command failing (status 256, no root directory is created), `main` does not
exit: `initialize_paths` returns and `select_user_type` is entered. -/
theorem startup_survives_failed_mkdir :
    (∀ c ∈ initialize_paths.commands pathsSrv, (fun _ => (256 : Int)) c ≠ 0) ∧
    main_startup 4096 (some "/srv".toList) (fun _ => 256) = Startup.select_user_type pathsSrv := by
  refine ⟨fun c _ => ?_, by decide⟩
  show (256 : Int) ≠ 0
  decide

/-- Claim C19, amended: start-up fails fatally (the process exits and no
session is served) exactly when the current directory cannot be obtained or
one of the four root paths does not fit in `PATH_MAX`; the status of the
`mkdir -p` commands is not examined, so the outcome is the same whatever
`system` returns. -/
theorem startup_exit_iff (PATH_MAX : Nat) (getcwd : Option CStr) (system system2 : CStr → Int) :
    (main_startup PATH_MAX getcwd system = Startup.exit_failure ↔
      getcwd = none ∨ ∃ d, getcwd = some d ∧
        (PATH_MAX ≤ (d ++ "/logistics".toList).length ∨
         PATH_MAX ≤ (d ++ "/logistics".toList ++ "/admin".toList).length ∨
         PATH_MAX ≤ (d ++ "/logistics".toList ++ "/warehouse".toList).length ∨
         PATH_MAX ≤ (d ++ "/logistics".toList ++ "/customers".toList).length)) ∧
    main_startup PATH_MAX getcwd system = main_startup PATH_MAX getcwd system2 := by
  rw [← initialize_paths_eq_none_iff]
  unfold main_startup
  cases h : initialize_paths PATH_MAX getcwd with
  | none => simp
  | some P => simp

theorem within_root_common (L a b : CStr) (h : within_root (L ++ a) (L ++ b)) :
    a ++ ['/'] <+: b ++ ['/'] := by
  have h1 := within_root_prefix _ _ h
  rw [List.append_assoc, List.append_assoc] at h1
  exact (List.prefix_append_right_inj L).mp h1

/-- Claim C20: after a successful `initialize_paths`, each of the three role
roots is the logistics root followed by `/` and one further segment, so the
logistics root boundary-matches every role root, and no role root lies at or
under another role root. -/
theorem role_roots_layout (PATH_MAX : Nat) (getcwd : Option CStr) (P : Paths)
    (hinit : initialize_paths PATH_MAX getcwd = some P) :
    (∃ a w c, '/' ∉ a ∧ '/' ∉ w ∧ '/' ∉ c ∧
      P.ADMIN_BASE_PATH = P.LOGISTICS_BASE_PATH ++ '/' :: a ∧
      P.WAREHOUSE_BASE_PATH = P.LOGISTICS_BASE_PATH ++ '/' :: w ∧
      P.CUSTOMER_BASE_PATH = P.LOGISTICS_BASE_PATH ++ '/' :: c) ∧
    (within_root P.LOGISTICS_BASE_PATH P.ADMIN_BASE_PATH ∧
      within_root P.LOGISTICS_BASE_PATH P.WAREHOUSE_BASE_PATH ∧
      within_root P.LOGISTICS_BASE_PATH P.CUSTOMER_BASE_PATH) ∧
    (¬ within_root P.ADMIN_BASE_PATH P.WAREHOUSE_BASE_PATH ∧
      ¬ within_root P.ADMIN_BASE_PATH P.CUSTOMER_BASE_PATH ∧
      ¬ within_root P.WAREHOUSE_BASE_PATH P.ADMIN_BASE_PATH ∧
      ¬ within_root P.WAREHOUSE_BASE_PATH P.CUSTOMER_BASE_PATH ∧
      ¬ within_root P.CUSTOMER_BASE_PATH P.ADMIN_BASE_PATH ∧
      ¬ within_root P.CUSTOMER_BASE_PATH P.WAREHOUSE_BASE_PATH) := by
  obtain ⟨L, eL, eA, eW, eC, -, -, -⟩ := initialize_paths_eq_some _ _ _ hinit
  rw [eL, eA, eW, eC]
  refine ⟨⟨"admin".toList, "warehouse".toList, "customers".toList, by decide, by decide,
    by decide, rfl, rfl, rfl⟩, ⟨?_, ?_, ?_⟩, ?_⟩
  · exact Or.inr ⟨"admin".toList, by simp⟩
  · exact Or.inr ⟨"warehouse".toList, by simp⟩
  · exact Or.inr ⟨"customers".toList, by simp⟩
  · refine ⟨?_, ?_, ?_, ?_, ?_, ?_⟩ <;>
      exact fun h => absurd (within_root_common L _ _ h) (by decide)

/-- Witness for claim C20: a process started in `/srv`. -/
theorem role_roots_layout_witness :
    initialize_paths 4096 (some "/srv".toList) = some pathsSrv ∧
    within_root pathsSrv.LOGISTICS_BASE_PATH pathsSrv.ADMIN_BASE_PATH ∧
    ¬ within_root pathsSrv.ADMIN_BASE_PATH pathsSrv.WAREHOUSE_BASE_PATH :=
  ⟨by decide,
    (role_roots_layout 4096 (some "/srv".toList) pathsSrv (by decide)).2.1.1,
    (role_roots_layout 4096 (some "/srv".toList) pathsSrv (by decide)).2.2.1⟩

/-! ## Lemmas on console input -/

theorem fgets_read_line (n : Nat) (l rest : CStr) (hl : '\n' ∉ l) (hn : l.length < n) :
    fgets.read n (l ++ '\n' :: rest) = (l ++ ['\n'], rest) := by
  induction l generalizing n with
  | nil =>
    cases n with
    | zero => omega
    | succ m => simp [fgets.read]
  | cons c cs ih =>
    cases n with
    | zero => simp at hn
    | succ m =>
      have hc : c ≠ '\n' := fun e => hl (by simp [e])
      have hcs : '\n' ∉ cs := fun e => hl (by simp [e])
      have := ih m hcs (by simpa using hn)
      simp [fgets.read, hc, this]

theorem strcspn_line (l : CStr) (hl : '\n' ∉ l) : strcspn (l ++ ['\n']) ['\n'] = l.length := by
  induction l with
  | nil => simp [strcspn]
  | cons c cs ih =>
    have hc : c ≠ '\n' := fun e => hl (by simp [e])
    have hcs : '\n' ∉ cs := fun e => hl (by simp [e])
    simp [strcspn, hc, ih hcs]

theorem c_string_of_no_nul (l : CStr) (h : '\x00' ∉ l) : c_string l = l := by
  unfold c_string
  rw [List.takeWhile_eq_self_iff]
  intro b hb
  have : b ≠ '\x00' := fun e => h (e ▸ hb)
  simpa using this

/-- A line without NUL bytes that fits the buffer is delivered whole, without
its newline, and the input after it stays unread. -/
theorem get_input_line (prompt : CStr) (size : Nat) (w : World) (l rest : CStr)
    (hl : '\n' ∉ l) (hnul : '\x00' ∉ l) (hsize : l.length + 2 ≤ size)
    (hin : w.stdin = l ++ '\n' :: rest) :
    get_input prompt size w = (some l, { w.printf (.text prompt) with stdin := rest }) := by
  unfold get_input
  have hs : (w.printf (.text prompt)).stdin = l ++ '\n' :: rest := by simpa [World.printf] using hin
  have hr := fgets_read_line (size - 1) l rest hl (by omega)
  have hc : c_string (l ++ ['\n']) = l ++ ['\n'] :=
    c_string_of_no_nul _ (by
      intro hm
      rcases List.mem_append.mp hm with h | h
      · exact hnul h
      · simp at h)
  simp only [hs]
  cases hcase : l ++ '\n' :: rest with
  | nil => simp at hcase
  | cons c cs =>
    rw [hcase] at hr
    simp only [fgets, hr, hc]
    rw [strcspn_line l hl]
    simp

theorem buffer_of_read (n : Nat) (s : CStr) :
    (c_string (fgets.read n s).1).take (strcspn (c_string (fgets.read n s).1) ['\n'])
      = c_string ((s.take n).takeWhile (fun b => b != '\n')) := by
  induction n generalizing s with
  | zero => simp [fgets.read, c_string, strcspn]
  | succ m ih =>
    cases s with
    | nil => simp [fgets.read, c_string, strcspn]
    | cons c cs =>
      by_cases hc : c = '\n'
      · subst hc
        simp [fgets.read, c_string, strcspn]
      · by_cases h0 : c = '\x00'
        · subst h0
          simp [fgets.read, c_string, strcspn]
        · have ih2 := ih cs
          unfold c_string at ih2 ⊢
          have hcb : (c != '\n') = true := by simpa using hc
          have h0b : (c != '\x00') = true := by simpa using h0
          simp only [fgets.read, hc, if_false, List.take_succ_cons, List.takeWhile_cons, hcb,
            h0b, if_true, strcspn, List.mem_singleton]
          rw [ih2]

/-- What `get_input` delivers is the part of the pending input described by
`line_read`, and nothing when the input is at its end. -/
theorem get_input_read (prompt : CStr) (size : Nat) (w : World) :
    (get_input prompt size w).1 = if w.stdin = [] then none else some (line_read size w.stdin) := by
  unfold get_input line_read
  have hs : (w.printf (.text prompt)).stdin = w.stdin := rfl
  simp only [hs]
  cases hcase : w.stdin with
  | nil => simp [fgets]
  | cons c cs =>
    simp only [fgets, reduceCtorEq, if_false, Option.some.injEq]
    exact buffer_of_read (size - 1) (c :: cs)

theorem line_read_of_line (size : Nat) (line rest : CStr) (hl : '\n' ∉ line)
    (hnul : '\x00' ∉ line) (hsize : line.length + 2 ≤ size) :
    line_read size (line ++ '\n' :: rest) = line := by
  unfold line_read
  have htake : (line ++ '\n' :: rest).take (size - 1)
      = line ++ ('\n' :: rest).take (size - 1 - line.length) := by
    rw [List.take_append_eq_append_take, List.take_of_length_le (by omega)]
  obtain ⟨m, hm⟩ : ∃ m, size - 1 - line.length = m + 1 := ⟨size - 2 - line.length, by omega⟩
  rw [htake, hm, List.take_succ_cons, List.takeWhile_append_of_pos]
  · simp only [bne_self_eq_false, Bool.false_eq_true, not_false_eq_true,
      List.takeWhile_cons_of_neg, List.append_nil]
    exact c_string_of_no_nul line hnul
  · intro b hb
    have : b ≠ '\n' := fun e => hl (e ▸ hb)
    simpa using this

theorem atoi_eq_zero_of_not_number (s : CStr) (h : starts_with_number s = false) : atoi s = 0 := by
  have key : ∀ r : CStr, (r.head?.map isdigit).getD false = false → atoi.digits r 0 = 0 := by
    intro r hr
    cases r with
    | nil => rfl
    | cons c cs =>
      have hc : isdigit c = false := by simpa using hr
      simp [atoi.digits, hc]
  unfold starts_with_number at h
  unfold atoi
  split <;> split at h <;> simp_all

/-! ## Lemmas on `select_base_path_with_other` -/

theorem select_of_choice (PATH_MAX : Nat) (realpath : Realpath) (stat_is_dir : CStr → Bool)
    (user_ctx : UserContext) (prompt : CStr) (w w2 : World) (c : CStr)
    (hin : get_input "Enter your choice: ".toList 10
      (select_base_path_with_other.menu user_ctx prompt w) = (some c, w2)) :
    select_base_path_with_other PATH_MAX realpath stat_is_dir user_ctx prompt w =
      if atoi c - 1 < 0 ∨ atoi c - 1 > (user_ctx.base_paths_count : Int) then
        (none, w2.printf (.text "Invalid choice.".toList))
      else if atoi c - 1 = (user_ctx.base_paths_count : Int) then
        select_base_path_with_other.other PATH_MAX realpath stat_is_dir user_ctx w2
      else (some (.base_paths (atoi c - 1).toNat), w2) := by
  unfold select_base_path_with_other
  simp only [hin]

theorem other_of_choice (PATH_MAX : Nat) (realpath : Realpath) (stat_is_dir : CStr → Bool)
    (user_ctx : UserContext) (w w2 : World) (c : CStr)
    (hin : get_input "Enter your choice: ".toList 10
      (select_base_path_with_other.other_menu user_ctx w) = (some c, w2)) :
    select_base_path_with_other.other PATH_MAX realpath stat_is_dir user_ctx w =
      if atoi c - 1 < 0 ∨ atoi c - 1 ≥ (user_ctx.base_paths_count : Int) then
        (none, w2.printf (.text "Invalid choice.".toList))
      else
        match get_input "Enter the subdirectory path under selected base directory: ".toList
            256 w2 with
        | (none, w3) => (none, w3.printf (.text "Error reading input.".toList))
        | (some subdir_name, w3) =>
          select_base_path_with_other.subdir PATH_MAX realpath stat_is_dir user_ctx
            (user_ctx.base_paths.getD (atoi c - 1).toNat []) subdir_name w3 := by
  unfold select_base_path_with_other.other
  simp only [hin]

/-- What the last part of the "Other" branch returns, for a root list with
its own count. -/
theorem subdir_value (PATH_MAX : Nat) (realpath : Realpath) (stat_is_dir : CStr → Bool)
    (roots : List CStr) (p s : CStr) (w : World) (v : CStr) :
    ((select_base_path_with_other.subdir PATH_MAX realpath stat_is_dir
        (UserContext.of_roots roots) p s w).1.map
      (PathRef.read (UserContext.of_roots roots)
        (select_base_path_with_other.subdir PATH_MAX realpath stat_is_dir
          (UserContext.of_roots roots) p s w).2) = some v) ↔
      ((sanitize_filename s 256).isSome = true ∧ (p ++ '/' :: s).length < PATH_MAX ∧
        is_valid_path PATH_MAX realpath roots (p ++ '/' :: s) = true ∧
        stat_is_dir (p ++ '/' :: s) = true ∧ v = p ++ '/' :: s) := by
  unfold select_base_path_with_other.subdir
  cases hs : sanitize_filename s 256 with
  | none => simp
  | some out =>
    obtain ⟨rfl, -⟩ := sanitize_filename_verbatim s out 256 hs
    simp only [UserContext.of_roots, List.take_length, Option.isSome_some, true_and]
    by_cases hlen : (p ++ '/' :: out).length ≥ PATH_MAX
    · rw [if_pos hlen]
      simp only [Option.map_none']
      constructor
      · intro h
        cases h
      · rintro ⟨h, -⟩
        omega
    · rw [if_neg hlen]
      have htake : List.take (PATH_MAX - 1) (p ++ '/' :: out) = p ++ '/' :: out :=
        List.take_of_length_le (by omega)
      simp only [htake]
      cases hv : is_valid_path PATH_MAX realpath roots (p ++ '/' :: out) with
      | false => simp
      | true =>
        cases hd : stat_is_dir (p ++ '/' :: out) with
        | false => simp
        | true =>
          simp only [Bool.not_true, Bool.false_eq_true, ↓reduceIte, Option.map_some',
            PathRef.read, Option.some.injEq, and_true, true_and]
          constructor
          · intro h
            exact ⟨by omega, h.symm⟩
          · intro h
            exact h.2.symm

/-! ## Claims on `select_base_path_with_other` -/

/-- Claim C13: in the "Other" flow a directory is returned if and only if the
second choice names a listed root `p` (a number `k + 1` with `roots[k] = p`),
the subdirectory name `s` read next passes `sanitize_filename`, the
composition `p/s` is shorter than `PATH_MAX`, `is_valid_path` accepts it
against the same root list, and `stat` reports it as an existing directory;
the value returned is then exactly `p/s`. Hence the flow never returns a path
that does not exist as a directory. -/
theorem other_flow_returns_iff (PATH_MAX : Nat) (realpath : Realpath)
    (stat_is_dir : CStr → Bool) (roots : List CStr) (w : World) (v : CStr) :
    (select_base_path_with_other.other_value PATH_MAX realpath stat_is_dir
        (UserContext.of_roots roots) w = some v ↔
      ∃ (c : CStr) (w2 : World) (s : CStr) (w3 : World) (k : Nat) (p : CStr),
        get_input "Enter your choice: ".toList 10
          (select_base_path_with_other.other_menu (UserContext.of_roots roots) w)
            = (some c, w2) ∧
        atoi c = (k : Int) + 1 ∧ roots.get? k = some p ∧
        get_input "Enter the subdirectory path under selected base directory: ".toList 256 w2
            = (some s, w3) ∧
        (sanitize_filename s 256).isSome = true ∧
        (p ++ '/' :: s).length < PATH_MAX ∧
        is_valid_path PATH_MAX realpath roots (p ++ '/' :: s) = true ∧
        stat_is_dir (p ++ '/' :: s) = true ∧
        v = p ++ '/' :: s) ∧
    (select_base_path_with_other.other_value PATH_MAX realpath stat_is_dir
        (UserContext.of_roots roots) w = some v → stat_is_dir v = true) := by
  have main : select_base_path_with_other.other_value PATH_MAX realpath stat_is_dir
        (UserContext.of_roots roots) w = some v ↔
      ∃ (c : CStr) (w2 : World) (s : CStr) (w3 : World) (k : Nat) (p : CStr),
        get_input "Enter your choice: ".toList 10
          (select_base_path_with_other.other_menu (UserContext.of_roots roots) w)
            = (some c, w2) ∧
        atoi c = (k : Int) + 1 ∧ roots.get? k = some p ∧
        get_input "Enter the subdirectory path under selected base directory: ".toList 256 w2
            = (some s, w3) ∧
        (sanitize_filename s 256).isSome = true ∧
        (p ++ '/' :: s).length < PATH_MAX ∧
        is_valid_path PATH_MAX realpath roots (p ++ '/' :: s) = true ∧
        stat_is_dir (p ++ '/' :: s) = true ∧
        v = p ++ '/' :: s := by
    unfold select_base_path_with_other.other_value
    rcases h2 : get_input "Enter your choice: ".toList 10
        (select_base_path_with_other.other_menu (UserContext.of_roots roots) w) with ⟨o, w2⟩
    cases o with
    | none =>
      have hnone : select_base_path_with_other.other PATH_MAX realpath stat_is_dir
          (UserContext.of_roots roots) w
            = (none, w2.printf (.text "Error reading input.".toList)) := by
        unfold select_base_path_with_other.other
        simp only [h2]
      rw [hnone]
      constructor
      · intro h
        cases h
      · rintro ⟨c, w2', s, w3, k, p, hc, -⟩
        cases hc
    | some c =>
      rw [other_of_choice PATH_MAX realpath stat_is_dir _ w w2 c h2]
      by_cases hr : atoi c - 1 < 0 ∨ atoi c - 1 ≥ ((UserContext.of_roots roots).base_paths_count : Int)
      · rw [if_pos hr]
        constructor
        · intro h
          cases h
        · rintro ⟨c', w2', s, w3, k, p, hc, hk, hp, -⟩
          cases hc
          have hlt : k < roots.length := by
            rcases Nat.lt_or_ge k roots.length with h | h
            · exact h
            · rw [List.get?_eq_none.mpr h] at hp
              cases hp
          simp only [UserContext.of_roots] at hr
          omega
      · rw [if_neg hr]
        simp only [UserContext.of_roots, not_or, not_lt, ge_iff_le, not_le] at hr
        obtain ⟨k, hk⟩ : ∃ k : Nat, atoi c = (k : Int) + 1 := ⟨(atoi c - 1).toNat, by omega⟩
        have hkn : k < roots.length := by omega
        have htn : (atoi c - 1).toNat = k := by omega
        have hget : roots.get? k = some (roots.getD k []) := by
          rw [List.getD_eq_getElem?_getD, List.get?_eq_getElem?, List.getElem?_eq_getElem hkn]
          rfl
        have hbp : (UserContext.of_roots roots).base_paths = roots := rfl
        rw [hbp, htn]
        rcases h3 : get_input
            "Enter the subdirectory path under selected base directory: ".toList 256 w2
          with ⟨o3, w3⟩
        cases o3 with
        | none =>
          constructor
          · intro h
            cases h
          · rintro ⟨c', w2', s, w3', k', p, hc, -, -, hs, -⟩
            cases hc
            rw [h3] at hs
            cases hs
        | some s =>
          simp only []
          rw [subdir_value]
          constructor
          · rintro ⟨h1, h2', h3', h4, h5⟩
            exact ⟨c, w2, s, w3, k, _, rfl, hk, hget, h3, h1, h2', h3', h4, h5⟩
          · rintro ⟨c', w2', s', w3', k', p, hc, hk', hp, hs, h1, h2', h3', h4, h5⟩
            cases hc
            have hkk : k' = k := by omega
            subst hkk
            rw [hget] at hp
            cases hp
            rw [h3] at hs
            cases hs
            exact ⟨h1, h2', h3', h4, h5⟩
  refine ⟨main, fun h => ?_⟩
  obtain ⟨c, w2, s, w3, k, p, -, -, -, -, -, -, -, hdir, hv⟩ := main.mp h
  rw [hv]
  exact hdir

/-- Witness for claim C13: with the roots `/admin`, `/warehouse`, `/customer`
and the directory `/warehouse/incoming`, the input lines `2` and `incoming`
make the "Other" flow return `/warehouse/incoming`, an existing directory;
so does a name line that carries a NUL byte after `incoming`, of which the
buffer holds the string `incoming`. -/
theorem other_flow_returns_iff_witness :
    (select_base_path_with_other.other_value 4096 fsIncoming (dirsOf fsIncoming)
        (UserContext.of_roots rootsExample) (World.start "2\nincoming\n".toList)
      = some "/warehouse/incoming".toList ∧
      select_base_path_with_other.other_value 4096 fsIncoming (dirsOf fsIncoming)
        (UserContext.of_roots rootsExample)
        (World.start "2\nincoming\x00/../../etc\n".toList)
      = some "/warehouse/incoming".toList) ∧
    dirsOf fsIncoming "/warehouse/incoming".toList = true ∧
    dirsOf fsIncoming "/warehouse/incoming".toList = true :=
  ⟨⟨by decide, by decide⟩,
    (other_flow_returns_iff 4096 fsIncoming (dirsOf fsIncoming) rootsExample
      (World.start "2\nincoming\n".toList) "/warehouse/incoming".toList).2 (by decide),
    (other_flow_returns_iff 4096 fsIncoming (dirsOf fsIncoming) rootsExample
      (World.start "2\nincoming\x00/../../etc\n".toList) "/warehouse/incoming".toList).2
      (by decide)⟩

theorem select_value_of_other (PATH_MAX : Nat) (realpath : Realpath) (stat_is_dir : CStr → Bool)
    (user_ctx : UserContext) (prompt : CStr) (w w2 : World)
    (h : select_base_path_with_other PATH_MAX realpath stat_is_dir user_ctx prompt w =
      select_base_path_with_other.other PATH_MAX realpath stat_is_dir user_ctx w2) :
    select_base_path_with_other.value PATH_MAX realpath stat_is_dir user_ctx prompt w =
      select_base_path_with_other.other_value PATH_MAX realpath stat_is_dir user_ctx w2 := by
  unfold select_base_path_with_other.value select_base_path_with_other.other_value
  rw [h]

/-- Claim C14: with the roots `/admin`, `/warehouse`, `/customer`, each
resolving to itself, the input lines `4` ("Other"), `2` (the root of index 1,
`/warehouse`) and `incoming` make `select_base_path_with_other` return
`/warehouse/incoming` when that directory exists (`stat` reports a directory
and `realpath` resolves it to itself), and return `NULL` when `stat` does not
report a directory there. -/
theorem select_other_incoming (PATH_MAX : Nat) (realpath : Realpath)
    (stat_is_dir : CStr → Bool) (prompt rest : CStr) (hP : 19 < PATH_MAX)
    (hroots : ∀ r ∈ rootsExample, realpath r = some r) :
    (stat_is_dir "/warehouse/incoming".toList = true →
      realpath "/warehouse/incoming".toList = some "/warehouse/incoming".toList →
      select_base_path_with_other.value PATH_MAX realpath stat_is_dir
        (UserContext.of_roots rootsExample) prompt
        (World.start ("4\n2\nincoming\n".toList ++ rest)) = some "/warehouse/incoming".toList) ∧
    (stat_is_dir "/warehouse/incoming".toList = false →
      select_base_path_with_other.value PATH_MAX realpath stat_is_dir
        (UserContext.of_roots rootsExample) prompt
        (World.start ("4\n2\nincoming\n".toList ++ rest)) = none) := by
  have hW : realpath "/warehouse".toList = some "/warehouse".toList :=
    hroots _ (by decide)
  have hin1 := get_input_line "Enter your choice: ".toList 10
    (select_base_path_with_other.menu (UserContext.of_roots rootsExample) prompt
      (World.start ("4\n2\nincoming\n".toList ++ rest)))
    "4".toList ("2\nincoming\n".toList ++ rest) (by decide) (by decide) (by decide) rfl
  have hsel := select_of_choice PATH_MAX realpath stat_is_dir _ prompt _ _ _ hin1
  have hat : atoi "4".toList = 4 := by decide
  have hcount : ((UserContext.of_roots rootsExample).base_paths_count : Int) = 3 := by decide
  rw [hat, hcount, if_neg (by decide), if_pos (by decide)] at hsel
  rw [select_value_of_other _ _ _ _ _ _ _ hsel]
  have hin2 := get_input_line "Enter your choice: ".toList 10
    (select_base_path_with_other.other_menu (UserContext.of_roots rootsExample)
      { (select_base_path_with_other.menu (UserContext.of_roots rootsExample) prompt
          (World.start ("4\n2\nincoming\n".toList ++ rest))).printf
            (.text "Enter your choice: ".toList) with
        stdin := "2\nincoming\n".toList ++ rest })
    "2".toList ("incoming\n".toList ++ rest) (by decide) (by decide) (by decide) rfl
  have hin3 := get_input_line
    "Enter the subdirectory path under selected base directory: ".toList 256
    { (select_base_path_with_other.other_menu (UserContext.of_roots rootsExample)
        { (select_base_path_with_other.menu (UserContext.of_roots rootsExample) prompt
            (World.start ("4\n2\nincoming\n".toList ++ rest))).printf
              (.text "Enter your choice: ".toList) with
          stdin := "2\nincoming\n".toList ++ rest }).printf
            (.text "Enter your choice: ".toList) with
      stdin := "incoming\n".toList ++ rest }
    "incoming".toList rest (by decide) (by decide) (by decide) rfl
  constructor
  · intro hdir hreal
    refine (other_flow_returns_iff PATH_MAX realpath stat_is_dir rootsExample _ _).1.mpr
      ⟨_, _, _, _, 1, "/warehouse".toList, hin2, by decide, by decide, hin3, by decide, ?_, ?_,
        hdir, by decide⟩
    · exact hP
    · rw [is_valid_path_eq_true_iff]
      exact ⟨_, real_target_of_resolves PATH_MAX realpath _ _ hreal, "/warehouse".toList,
        by decide, _, hW, by decide⟩
  · intro hdir
    cases hv : select_base_path_with_other.other_value PATH_MAX realpath stat_is_dir
        (UserContext.of_roots rootsExample)
        { (select_base_path_with_other.menu (UserContext.of_roots rootsExample) prompt
            (World.start ("4\n2\nincoming\n".toList ++ rest))).printf
              (.text "Enter your choice: ".toList) with
          stdin := "2\nincoming\n".toList ++ rest } with
    | none => rfl
    | some v =>
      exfalso
      obtain ⟨c, w2, s, w3, k, p, h2, hk, hp, h3, -, -, -, hd, -⟩ :=
        (other_flow_returns_iff PATH_MAX realpath stat_is_dir rootsExample _ v).1.mp hv
      rw [hin2] at h2
      cases h2
      rw [hin3] at h3
      cases h3
      have hk1 : k = 1 := by
        have : atoi "2".toList = 2 := by decide
        omega
      subst hk1
      have hp' : p = "/warehouse".toList := by
        have : rootsExample.get? 1 = some "/warehouse".toList := by decide
        rw [this] at hp
        cases hp
        rfl
      subst hp'
      have : stat_is_dir "/warehouse/incoming".toList = true := hd
      rw [hdir] at this
      cases this

/-- Witness for claim C14: the file system with `/warehouse/incoming`, and
the file system without it. -/
theorem select_other_incoming_witness :
    (19 < 4096 ∧ (∀ r ∈ rootsExample, fsIncoming r = some r) ∧
      dirsOf fsIncoming "/warehouse/incoming".toList = true ∧
      fsIncoming "/warehouse/incoming".toList = some "/warehouse/incoming".toList ∧
      (∀ r ∈ rootsExample, fsRootsOnly r = some r) ∧
      dirsOf fsRootsOnly "/warehouse/incoming".toList = false) ∧
    select_base_path_with_other.value 4096 fsIncoming (dirsOf fsIncoming)
      (UserContext.of_roots rootsExample) "Select:".toList
      (World.start ("4\n2\nincoming\n".toList ++ [])) = some "/warehouse/incoming".toList ∧
    select_base_path_with_other.value 4096 fsRootsOnly (dirsOf fsRootsOnly)
      (UserContext.of_roots rootsExample) "Select:".toList
      (World.start ("4\n2\nincoming\n".toList ++ [])) = none :=
  ⟨⟨by decide, by decide, by decide, by decide, by decide, by decide⟩,
    (select_other_incoming 4096 fsIncoming (dirsOf fsIncoming) "Select:".toList [] (by decide)
      (by decide)).1 (by decide) (by decide),
    (select_other_incoming 4096 fsRootsOnly (dirsOf fsRootsOnly) "Select:".toList []
      (by decide) (by decide)).2 (by decide)⟩

/-- Claim C15: for a root list of `n` entries and a first choice `k` with
`1 <= k <= n`, `select_base_path_with_other` returns the `k`-th listed root
`roots[k - 1]` directly: the state it leaves is the one right after the first
line was read (no further input, no further output, `temp_path` untouched),
and the outcome is the same whatever `realpath` and `stat` would answer. -/
theorem select_listed_root (PATH_MAX : Nat) (realpath : Realpath) (stat_is_dir : CStr → Bool)
    (roots : List CStr) (prompt : CStr) (w w2 : World) (c : CStr) (k : Nat)
    (hk1 : 1 ≤ k) (hkn : k ≤ roots.length)
    (hin : get_input "Enter your choice: ".toList 10
      (select_base_path_with_other.menu (UserContext.of_roots roots) prompt w) = (some c, w2))
    (hc : atoi c = (k : Int)) :
    select_base_path_with_other PATH_MAX realpath stat_is_dir (UserContext.of_roots roots)
        prompt w = (some (.base_paths (k - 1)), w2) ∧
    select_base_path_with_other.value PATH_MAX realpath stat_is_dir
        (UserContext.of_roots roots) prompt w = roots.get? (k - 1) ∧
    (∃ p, roots.get? (k - 1) = some p) ∧
    (∀ (PATH_MAX2 : Nat) (realpath2 : Realpath) (stat_is_dir2 : CStr → Bool),
      select_base_path_with_other PATH_MAX2 realpath2 stat_is_dir2
          (UserContext.of_roots roots) prompt w =
        select_base_path_with_other PATH_MAX realpath stat_is_dir
          (UserContext.of_roots roots) prompt w) := by
  have hcount : ((UserContext.of_roots roots).base_paths_count : Int) = (roots.length : Int) := rfl
  have hsel : ∀ (P : Nat) (rp : Realpath) (sd : CStr → Bool),
      select_base_path_with_other P rp sd (UserContext.of_roots roots) prompt w
        = (some (.base_paths (k - 1)), w2) := by
    intro P rp sd
    rw [select_of_choice P rp sd _ prompt w w2 c hin, hc, hcount,
      if_neg (by omega), if_neg (by omega)]
    have : ((k : Int) - 1).toNat = k - 1 := by omega
    rw [this]
  have hlt : k - 1 < roots.length := by omega
  have hget : roots.get? (k - 1) = some (roots.getD (k - 1) []) := by
    rw [List.getD_eq_getElem?_getD, List.get?_eq_getElem?, List.getElem?_eq_getElem hlt]
    rfl
  refine ⟨hsel _ _ _, ?_, ⟨_, hget⟩, fun P rp sd => ?_⟩
  · unfold select_base_path_with_other.value
    rw [hsel, hget]
    rfl
  · rw [hsel, hsel]

/-- Witness for claim C15: the input line `2` with the roots `/admin`,
`/warehouse`, `/customer` selects `/warehouse`, and the line after it stays
unread. -/
theorem select_listed_root_witness :
    (1 ≤ 2 ∧ 2 ≤ rootsExample.length ∧ atoi "2".toList = ((2 : Nat) : Int)) ∧
    select_base_path_with_other.value 4096 fsRootsOnly (dirsOf fsRootsOnly)
        (UserContext.of_roots rootsExample) "Select:".toList
        (World.start "2\nnext\n".toList) = some "/warehouse".toList ∧
    (select_base_path_with_other 4096 fsRootsOnly (dirsOf fsRootsOnly)
        (UserContext.of_roots rootsExample) "Select:".toList
        (World.start "2\nnext\n".toList)).2.stdin = "next\n".toList :=
  have h := select_listed_root 4096 fsRootsOnly (dirsOf fsRootsOnly) rootsExample
    "Select:".toList (World.start "2\nnext\n".toList)
    (get_input "Enter your choice: ".toList 10
      (select_base_path_with_other.menu (UserContext.of_roots rootsExample) "Select:".toList
        (World.start "2\nnext\n".toList))).2
    "2".toList 2 (by decide) (by decide) (by decide) (by decide)
  ⟨⟨by decide, by decide, by decide⟩, h.2.1.trans (by decide),
    (congrArg (fun r => r.2.stdin) h.1).trans (by decide)⟩

/-- Claim C16: for a root list of `n` entries the menu lists the synthetic
"Other" option under the number `n + 1`; the first choice `n + 1` enters the
"Other" flow and every other first choice ends the call without entering it
(invalid choice, or a listed root); in the "Other" flow the second choice
`n + 1` is not accepted. -/
theorem other_option_index (PATH_MAX : Nat) (realpath : Realpath) (stat_is_dir : CStr → Bool)
    (roots : List CStr) (prompt : CStr) (w : World) :
    (select_base_path_with_other.menu (UserContext.of_roots roots) prompt w).stdout.getLast?
      = some (Printed.other_entry ((roots.length : Int) + 1)) ∧
    (∀ c w2, get_input "Enter your choice: ".toList 10
        (select_base_path_with_other.menu (UserContext.of_roots roots) prompt w) = (some c, w2) →
      (atoi c = (roots.length : Int) + 1 →
        select_base_path_with_other PATH_MAX realpath stat_is_dir (UserContext.of_roots roots)
          prompt w =
        select_base_path_with_other.other PATH_MAX realpath stat_is_dir
          (UserContext.of_roots roots) w2) ∧
      (atoi c ≠ (roots.length : Int) + 1 →
        select_base_path_with_other PATH_MAX realpath stat_is_dir (UserContext.of_roots roots)
          prompt w = (none, w2.printf (.text "Invalid choice.".toList)) ∨
        select_base_path_with_other PATH_MAX realpath stat_is_dir (UserContext.of_roots roots)
          prompt w = (some (.base_paths (atoi c - 1).toNat), w2))) ∧
    (∀ w1 c w2, get_input "Enter your choice: ".toList 10
        (select_base_path_with_other.other_menu (UserContext.of_roots roots) w1)
          = (some c, w2) →
      atoi c = (roots.length : Int) + 1 →
      select_base_path_with_other.other PATH_MAX realpath stat_is_dir
        (UserContext.of_roots roots) w1 = (none, w2.printf (.text "Invalid choice.".toList))) := by
  have hcount : ((UserContext.of_roots roots).base_paths_count : Int) = (roots.length : Int) := rfl
  refine ⟨?_, ?_, ?_⟩
  · simp [select_base_path_with_other.menu, World.printf, UserContext.of_roots]
  · intro c w2 hin
    rw [select_of_choice PATH_MAX realpath stat_is_dir _ prompt w w2 c hin, hcount]
    constructor
    · intro hc
      rw [if_neg (by omega), if_pos (by omega)]
    · intro hc
      by_cases hr : atoi c - 1 < 0 ∨ atoi c - 1 > (roots.length : Int)
      · left
        rw [if_pos hr]
      · right
        rw [if_neg hr, if_neg (by omega)]
  · intro w1 c w2 hin hc
    rw [other_of_choice PATH_MAX realpath stat_is_dir _ w1 w2 c hin, hcount,
      if_pos (by omega)]

/-- Witness for claim C16: with three roots, the line `4` enters the "Other"
flow, where a second line `4` is refused. -/
theorem other_option_index_witness :
    atoi "4".toList = (rootsExample.length : Int) + 1 ∧
    select_base_path_with_other 4096 fsRootsOnly (dirsOf fsRootsOnly)
        (UserContext.of_roots rootsExample) "Select:".toList (World.start "4\n4\n".toList) =
      select_base_path_with_other.other 4096 fsRootsOnly (dirsOf fsRootsOnly)
        (UserContext.of_roots rootsExample)
        (get_input "Enter your choice: ".toList 10
          (select_base_path_with_other.menu (UserContext.of_roots rootsExample)
            "Select:".toList (World.start "4\n4\n".toList))).2 ∧
    (select_base_path_with_other 4096 fsRootsOnly (dirsOf fsRootsOnly)
        (UserContext.of_roots rootsExample) "Select:".toList
        (World.start "4\n4\n".toList)).1 = none :=
  ⟨by decide,
    ((other_option_index 4096 fsRootsOnly (dirsOf fsRootsOnly) rootsExample "Select:".toList
      (World.start "4\n4\n".toList)).2.1 "4".toList _ (by decide)).1 (by decide),
    by decide⟩

/-- Claim C17, as stated, fails, in two ways. The first-choice input `1abc`
is not a number, yet the call does not return `NULL`: `atoi` reads the
leading `1` and the first root `/admin` is returned. The first-choice input
`0000000012` is the number 12, outside `1..4`, yet the call returns `/admin`
as well: the 10-byte buffer takes the first 9 bytes, which read as 1. -/
theorem select_accepts_trailing_text :
    (is_number "1abc".toList = false ∧
      select_base_path_with_other.value 4096 fsRootsOnly (dirsOf fsRootsOnly)
        (UserContext.of_roots rootsExample) "Select:".toList (World.start "1abc\n".toList)
        = some "/admin".toList) ∧
    (is_number "0000000012".toList = true ∧ atoi "0000000012".toList = 12 ∧
      select_base_path_with_other.value 4096 fsRootsOnly (dirsOf fsRootsOnly)
        (UserContext.of_roots rootsExample) "Select:".toList
        (World.start "0000000012\n".toList) = some "/admin".toList) := by
  decide

theorem select_rejects_of_buffer (PATH_MAX : Nat) (realpath : Realpath)
    (stat_is_dir : CStr → Bool) (roots : List CStr) (prompt : CStr) (w : World) :
    (∀ c w2, get_input "Enter your choice: ".toList 10
        (select_base_path_with_other.menu (UserContext.of_roots roots) prompt w) = (some c, w2) →
      (starts_with_number c = false ∨ atoi c < 1 ∨ atoi c > (roots.length : Int) + 1) →
      select_base_path_with_other PATH_MAX realpath stat_is_dir (UserContext.of_roots roots)
        prompt w = (none, w2.printf (.text "Invalid choice.".toList))) ∧
    (∀ w1 c w2, get_input "Enter your choice: ".toList 10
        (select_base_path_with_other.other_menu (UserContext.of_roots roots) w1)
          = (some c, w2) →
      (starts_with_number c = false ∨ atoi c < 1 ∨ atoi c > (roots.length : Int)) →
      select_base_path_with_other.other PATH_MAX realpath stat_is_dir
        (UserContext.of_roots roots) w1 = (none, w2.printf (.text "Invalid choice.".toList))) := by
  have hcount : ((UserContext.of_roots roots).base_paths_count : Int) = (roots.length : Int) := rfl
  constructor
  · intro c w2 hin hbad
    have hr : atoi c < 1 ∨ atoi c > (roots.length : Int) + 1 := by
      rcases hbad with h | h | h
      · left
        rw [atoi_eq_zero_of_not_number c h]
        decide
      · exact Or.inl h
      · exact Or.inr h
    rw [select_of_choice PATH_MAX realpath stat_is_dir _ prompt w w2 c hin, hcount,
      if_pos (by omega)]
  · intro w1 c w2 hin hbad
    have hr : atoi c < 1 ∨ atoi c > (roots.length : Int) := by
      rcases hbad with h | h | h
      · left
        rw [atoi_eq_zero_of_not_number c h]
        decide
      · exact Or.inl h
      · exact Or.inr h
    rw [other_of_choice PATH_MAX realpath stat_is_dir _ w1 w2 c hin, hcount,
      if_pos (by omega)]

/-- Claim C17, amended: `select_base_path_with_other` returns `NULL`, without
reading further input, for every first-choice input of which the part read
into the 10-byte buffer (of the first 9 bytes, those before the newline and
before any NUL) does not begin with a number (after optional white space and
sign, as `atoi` reads it) or begins with a number outside `1..count+1`, and
for every second-choice input in the "Other" flow of which the part read does
not begin with a number or begins with a number outside `1..count`. Of a line
of at most 8 bytes without NUL the part read is the whole line. -/
theorem select_rejects_invalid_choice (PATH_MAX : Nat) (realpath : Realpath)
    (stat_is_dir : CStr → Bool) (roots : List CStr) (prompt : CStr) (w : World) :
    ((starts_with_number (line_read 10 w.stdin) = false ∨ atoi (line_read 10 w.stdin) < 1 ∨
        atoi (line_read 10 w.stdin) > (roots.length : Int) + 1) →
      (select_base_path_with_other PATH_MAX realpath stat_is_dir (UserContext.of_roots roots)
        prompt w).1 = none ∧
      (select_base_path_with_other PATH_MAX realpath stat_is_dir (UserContext.of_roots roots)
        prompt w).2.stdin =
        (get_input "Enter your choice: ".toList 10
          (select_base_path_with_other.menu (UserContext.of_roots roots) prompt w)).2.stdin) ∧
    ((starts_with_number (line_read 10 w.stdin) = false ∨ atoi (line_read 10 w.stdin) < 1 ∨
        atoi (line_read 10 w.stdin) > (roots.length : Int)) →
      (select_base_path_with_other.other PATH_MAX realpath stat_is_dir
        (UserContext.of_roots roots) w).1 = none ∧
      (select_base_path_with_other.other PATH_MAX realpath stat_is_dir
        (UserContext.of_roots roots) w).2.stdin =
        (get_input "Enter your choice: ".toList 10
          (select_base_path_with_other.other_menu (UserContext.of_roots roots) w)).2.stdin) ∧
    (∀ line rest : CStr, '\n' ∉ line → '\x00' ∉ line → line.length ≤ 8 →
      line_read 10 (line ++ '\n' :: rest) = line) := by
  refine ⟨?_, ?_, fun line rest h1 h2 h3 => line_read_of_line 10 line rest h1 h2 (by omega)⟩
  · intro hbad
    have hst : (select_base_path_with_other.menu (UserContext.of_roots roots) prompt w).stdin
        = w.stdin := rfl
    have hread := get_input_read "Enter your choice: ".toList 10
      (select_base_path_with_other.menu (UserContext.of_roots roots) prompt w)
    rw [hst] at hread
    rcases hin : get_input "Enter your choice: ".toList 10
        (select_base_path_with_other.menu (UserContext.of_roots roots) prompt w) with ⟨o, w2⟩
    rw [hin] at hread
    by_cases he : w.stdin = []
    · rw [if_pos he] at hread
      simp only at hread
      subst hread
      have hsel : select_base_path_with_other PATH_MAX realpath stat_is_dir
          (UserContext.of_roots roots) prompt w
            = (none, w2.printf (.text "Error reading input.".toList)) := by
        unfold select_base_path_with_other
        simp only [hin]
      rw [hsel]
      exact ⟨rfl, rfl⟩
    · rw [if_neg he] at hread
      simp only at hread
      subst hread
      rw [(select_rejects_of_buffer PATH_MAX realpath stat_is_dir roots prompt w).1 _ w2 hin
        hbad]
      exact ⟨rfl, rfl⟩
  · intro hbad
    have hst : (select_base_path_with_other.other_menu (UserContext.of_roots roots) w).stdin
        = w.stdin := rfl
    have hread := get_input_read "Enter your choice: ".toList 10
      (select_base_path_with_other.other_menu (UserContext.of_roots roots) w)
    rw [hst] at hread
    rcases hin : get_input "Enter your choice: ".toList 10
        (select_base_path_with_other.other_menu (UserContext.of_roots roots) w) with ⟨o, w2⟩
    rw [hin] at hread
    by_cases he : w.stdin = []
    · rw [if_pos he] at hread
      simp only at hread
      subst hread
      have hsel : select_base_path_with_other.other PATH_MAX realpath stat_is_dir
          (UserContext.of_roots roots) w
            = (none, w2.printf (.text "Error reading input.".toList)) := by
        unfold select_base_path_with_other.other
        simp only [hin]
      rw [hsel]
      exact ⟨rfl, rfl⟩
    · rw [if_neg he] at hread
      simp only at hread
      subst hread
      rw [(select_rejects_of_buffer PATH_MAX realpath stat_is_dir roots prompt w).2 w _ w2 hin
        hbad]
      exact ⟨rfl, rfl⟩

/-- Witness for claim C17: with three roots, the first-choice lines `abc`
and `9` are refused, and so is the second-choice line `abc`; in each case the
line after it stays unread. -/
theorem select_rejects_invalid_choice_witness :
    (starts_with_number (line_read 10 (World.start "abc\nnext\n".toList).stdin) = false ∧
      atoi (line_read 10 (World.start "9\nnext\n".toList).stdin)
        > (rootsExample.length : Int) + 1) ∧
    ((select_base_path_with_other 4096 fsRootsOnly (dirsOf fsRootsOnly)
        (UserContext.of_roots rootsExample) "Select:".toList
        (World.start "abc\nnext\n".toList)).1 = none ∧
      (select_base_path_with_other 4096 fsRootsOnly (dirsOf fsRootsOnly)
        (UserContext.of_roots rootsExample) "Select:".toList
        (World.start "abc\nnext\n".toList)).2.stdin = "next\n".toList) ∧
    (select_base_path_with_other 4096 fsRootsOnly (dirsOf fsRootsOnly)
        (UserContext.of_roots rootsExample) "Select:".toList
        (World.start "9\nnext\n".toList)).1 = none ∧
    (select_base_path_with_other.other 4096 fsRootsOnly (dirsOf fsRootsOnly)
        (UserContext.of_roots rootsExample) (World.start "abc\nnext\n".toList)).1 = none :=
  have h1 := (select_rejects_invalid_choice 4096 fsRootsOnly (dirsOf fsRootsOnly) rootsExample
    "Select:".toList (World.start "abc\nnext\n".toList)).1 (Or.inl (by decide))
  have h2 := (select_rejects_invalid_choice 4096 fsRootsOnly (dirsOf fsRootsOnly) rootsExample
    "Select:".toList (World.start "9\nnext\n".toList)).1 (Or.inr (Or.inr (by decide)))
  have h3 := (select_rejects_invalid_choice 4096 fsRootsOnly (dirsOf fsRootsOnly) rootsExample
    "Select:".toList (World.start "abc\nnext\n".toList)).2.1 (Or.inl (by decide))
  ⟨⟨by decide, by decide⟩, ⟨h1.1, h1.2.trans (by decide)⟩, h2.1, h3.1⟩

/-! ## Further claims on `is_valid_path` -/

theorem loop_congr (rp1 rp2 : Realpath) (T : CStr) (roots : List CStr)
    (h : ∀ r ∈ roots, rp1 r = rp2 r) :
    is_valid_path.loop rp1 T roots = is_valid_path.loop rp2 T roots := by
  induction roots with
  | nil => rfl
  | cons b bs ih =>
    have hb : rp1 b = rp2 b := h b (by simp)
    have hbs : ∀ r ∈ bs, rp1 r = rp2 r := fun r hr => h r (by simp [hr])
    simp only [is_valid_path.loop, hb, ih hbs]

/-- Two file systems that answer alike on the candidate, on its leading parts
and on the roots give the same result. -/
theorem is_valid_path_congr_realpath (PATH_MAX : Nat) (realpath realpath2 : Realpath)
    (roots : List CStr) (path : CStr)
    (hagree : ∀ p, p = path ∨ p <+: path ∨ p ∈ roots → realpath p = realpath2 p) :
    is_valid_path PATH_MAX realpath roots path = is_valid_path PATH_MAX realpath2 roots path := by
  have htarget : is_valid_path.real_target PATH_MAX realpath path
      = is_valid_path.real_target PATH_MAX realpath2 path := by
    unfold is_valid_path.real_target
    rw [← hagree path (Or.inl rfl)]
    cases realpath path with
    | some t => rfl
    | none =>
      simp only
      cases strrchr (strncpy_terminated path PATH_MAX) '/' with
      | none => rfl
      | some i =>
        cases i with
        | zero => rfl
        | succ j =>
          simp only
          apply hagree
          right
          left
          unfold strncpy_terminated
          exact (List.take_prefix _ _).trans (List.take_prefix _ _)
  unfold is_valid_path
  rw [htarget]
  cases is_valid_path.real_target PATH_MAX realpath2 path with
  | none => rfl
  | some T => exact loop_congr realpath realpath2 T roots (fun r hr => hagree r (Or.inr (Or.inr hr)))

theorem fsBase_agrees_elsewhere :
    ∀ p, p = "/base/newfile.txt".toList ∨ p <+: "/base/newfile.txt".toList ∨
      p ∈ ["/base".toList] → fsBase p = fsBaseElsewhere p := by
  have hne : ∀ p : CStr, p <+: "/base/newfile.txt".toList → p ≠ "/elsewhere".toList := by
    intro p hp e
    subst e
    exact absurd hp (by decide)
  have key : ∀ p : CStr, p ≠ "/elsewhere".toList → fsBase p = fsBaseElsewhere p := by
    intro p hp
    have hp2 : ("/elsewhere".toList == p) = false := by
      rw [beq_eq_false_iff_ne]
      exact fun e => hp e.symm
    simp only [fsBase, fsBaseElsewhere, fsOf, List.find?, hp2]
  intro p hp
  rcases hp with h | h | h
  · subst h
    decide
  · exact key p (hne p h)
  · rw [List.mem_singleton] at h
    subst h
    decide

theorem loop_run_spec (realpath : Realpath) (scribble : CStr → CStr) (roots : List CStr)
    (m : PathMemory) :
    (is_valid_path.loop_run realpath scribble roots m).1
        = is_valid_path.loop realpath m.real_target roots ∧
    (is_valid_path.loop_run realpath scribble roots m).2.base_paths = m.base_paths ∧
    (is_valid_path.loop_run realpath scribble roots m).2.path = m.path := by
  induction roots generalizing m with
  | nil => exact ⟨rfl, rfl, rfl⟩
  | cons b bs ih =>
    unfold is_valid_path.loop_run is_valid_path.loop
    cases hb : realpath b with
    | none =>
      simp only
      exact ih _
    | some resolved =>
      simp only
      by_cases hm : is_valid_path.base_matches resolved m.real_target = true
      · rw [if_pos hm, if_pos hm]
        exact ⟨rfl, rfl, rfl⟩
      · rw [if_neg hm, if_neg hm]
        exact ih _

theorem run_spec (PATH_MAX : Nat) (realpath : Realpath) (scribble : CStr → CStr)
    (m : PathMemory) :
    (is_valid_path.run PATH_MAX realpath scribble m).1
        = is_valid_path PATH_MAX realpath m.base_paths m.path ∧
    (is_valid_path.run PATH_MAX realpath scribble m).2.base_paths = m.base_paths ∧
    (is_valid_path.run PATH_MAX realpath scribble m).2.path = m.path := by
  unfold is_valid_path.run is_valid_path is_valid_path.real_target
  cases hp : realpath m.path with
  | some resolved =>
    simp only
    exact loop_run_spec realpath scribble m.base_paths _
  | none =>
    simp only
    cases hs : strrchr (strncpy_terminated m.path PATH_MAX) '/' with
    | none => exact ⟨rfl, rfl, rfl⟩
    | some i =>
      cases i with
      | zero => exact ⟨rfl, rfl, rfl⟩
      | succ j =>
        simp only
        cases hq : realpath ((strncpy_terminated m.path PATH_MAX).take (j + 1)) with
        | none => exact ⟨rfl, rfl, rfl⟩
        | some resolved =>
          simp only
          exact loop_run_spec realpath scribble m.base_paths _

/-- Claim C22: two calls of `is_valid_path` with the same root list, the same
candidate and the same `realpath` outcomes (on the candidate, on its leading
parts where the parent is cut, and on the roots) return the same result,
whatever the local buffers held before and whatever a failing `realpath`
leaves in them; in particular a second call made right after the first
returns what the first returned. A call writes only to its local buffers: the
root list and the candidate are the same after the call as before. -/
theorem is_valid_path_deterministic (PATH_MAX : Nat) (realpath realpath2 : Realpath)
    (scribble scribble2 : CStr → CStr) (m m2 : PathMemory)
    (hroots : m2.base_paths = m.base_paths) (hpath : m2.path = m.path)
    (hagree : ∀ p, p = m.path ∨ p <+: m.path ∨ p ∈ m.base_paths → realpath p = realpath2 p) :
    (is_valid_path.run PATH_MAX realpath scribble m).1
      = (is_valid_path.run PATH_MAX realpath2 scribble2 m2).1 ∧
    (is_valid_path.run PATH_MAX realpath scribble
        (is_valid_path.run PATH_MAX realpath scribble m).2).1
      = (is_valid_path.run PATH_MAX realpath scribble m).1 ∧
    (is_valid_path.run PATH_MAX realpath scribble m).2.base_paths = m.base_paths ∧
    (is_valid_path.run PATH_MAX realpath scribble m).2.path = m.path ∧
    (is_valid_path.run PATH_MAX realpath scribble m).1
      = is_valid_path PATH_MAX realpath m.base_paths m.path := by
  obtain ⟨h1, h2, h3⟩ := run_spec PATH_MAX realpath scribble m
  obtain ⟨k1, -, -⟩ := run_spec PATH_MAX realpath2 scribble2 m2
  obtain ⟨j1, -, -⟩ := run_spec PATH_MAX realpath scribble
    (is_valid_path.run PATH_MAX realpath scribble m).2
  refine ⟨?_, ?_, h2, h3, h1⟩
  · rw [h1, k1, hroots, hpath]
    exact is_valid_path_congr_realpath PATH_MAX realpath realpath2 m.base_paths m.path hagree
  · rw [j1, h2, h3, h1]

/-- Witness for claim C22: the call on `/base/newfile.txt` under the root
`/base`, once with empty local buffers and once with left-overs in them and a
file system that differs at `/elsewhere`: the same result, and the root list
and the candidate are untouched. -/
theorem is_valid_path_deterministic_witness :
    (memoryDirty.base_paths = memoryClean.base_paths ∧ memoryDirty.path = memoryClean.path ∧
      memoryDirty ≠ memoryClean ∧
      fsBase "/elsewhere".toList ≠ fsBaseElsewhere "/elsewhere".toList) ∧
    (is_valid_path.run 4096 fsBase (fun _ => []) memoryClean).1
      = (is_valid_path.run 4096 fsBaseElsewhere (fun p => p) memoryDirty).1 ∧
    (is_valid_path.run 4096 fsBase (fun _ => []) memoryClean).1 = true ∧
    (is_valid_path.run 4096 fsBase (fun _ => []) memoryClean).2 ≠ memoryClean ∧
    (is_valid_path.run 4096 fsBase (fun _ => []) memoryClean).2.base_paths
      = memoryClean.base_paths ∧
    (is_valid_path.run 4096 fsBase (fun _ => []) memoryClean).2.path = memoryClean.path :=
  have h := is_valid_path_deterministic 4096 fsBase fsBaseElsewhere (fun _ => []) (fun p => p)
    memoryClean memoryDirty rfl rfl fsBase_agrees_elsewhere
  ⟨⟨by decide, by decide, by decide, by decide⟩, h.1, by decide, by decide, h.2.2.1, h.2.2.2.1⟩

/-- Claim C23: for a non-empty base directory `b` and a name `s` accepted by
`sanitize_filename`, with `b/s` shorter than `PATH_MAX`, the parent-stripping
step of `is_valid_path` on `b/s` cuts at offset `strlen(b)` and leaves exactly
`b`; so for a target `b/s` that does not exist the target of confinement is
`realpath(b)`, and the decision is the root comparison for `realpath(b)`
(rejection when `b` does not resolve). -/
theorem parent_of_joined_name (PATH_MAX : Nat) (realpath : Realpath) (roots : List CStr)
    (b s out : CStr) (size : Nat) (hb : b ≠ []) (hs : sanitize_filename s size = some out)
    (hlen : (b ++ '/' :: s).length < PATH_MAX) :
    strrchr (strncpy_terminated (b ++ '/' :: s) PATH_MAX) '/' = some b.length ∧
    (strncpy_terminated (b ++ '/' :: s) PATH_MAX).take b.length = b ∧
    (realpath (b ++ '/' :: s) = none →
      is_valid_path.real_target PATH_MAX realpath (b ++ '/' :: s) = realpath b ∧
      is_valid_path PATH_MAX realpath roots (b ++ '/' :: s) =
        match realpath b with
        | none => false
        | some T => is_valid_path.loop realpath T roots) := by
  have hslash : '/' ∉ s := by
    have h := (sanitize_filename_rejects_iff s size).1
    intro hmem
    have : sanitize_filename s size = none := h.mpr (Or.inr (Or.inr (Or.inr (Or.inl hmem))))
    rw [this] at hs
    cases hs
  have hcopy := strncpy_terminated_of_lt (b ++ '/' :: s) PATH_MAX hlen
  have hr : strrchr (b ++ '/' :: s) '/' = some b.length := strrchr_append_cons b s '/' hslash
  have hpos : ∃ n, b.length = n + 1 := by
    cases b with
    | nil => exact absurd rfl hb
    | cons c cs => exact ⟨cs.length, rfl⟩
  obtain ⟨n, hn⟩ := hpos
  have htake : (b ++ '/' :: s).take b.length = b := by simp
  rw [hcopy]
  refine ⟨hr, htake, fun hnew => ?_⟩
  have ht : is_valid_path.real_target PATH_MAX realpath (b ++ '/' :: s) = realpath b := by
    unfold is_valid_path.real_target
    rw [hnew]
    simp only [hcopy, hr, hn]
    rw [← hn, htake]
  refine ⟨ht, ?_⟩
  unfold is_valid_path
  rw [ht]

/-- Witness for claim C23: the new file `report.txt` in the directory `/base`. -/
theorem parent_of_joined_name_witness :
    ("/base".toList ≠ [] ∧
      sanitize_filename "report.txt".toList 256 = some "report.txt".toList ∧
      ("/base".toList ++ '/' :: "report.txt".toList).length < 4096 ∧
      fsBase ("/base".toList ++ '/' :: "report.txt".toList) = none) ∧
    (strncpy_terminated ("/base".toList ++ '/' :: "report.txt".toList) 4096).take
      "/base".toList.length = "/base".toList ∧
    is_valid_path.real_target 4096 fsBase ("/base".toList ++ '/' :: "report.txt".toList)
      = fsBase "/base".toList :=
  ⟨⟨by decide, by decide, by decide, by decide⟩,
    (parent_of_joined_name 4096 fsBase ["/base".toList] "/base".toList "report.txt".toList
      "report.txt".toList 256 (by decide) (by decide) (by decide)).2.1,
    ((parent_of_joined_name 4096 fsBase ["/base".toList] "/base".toList "report.txt".toList
      "report.txt".toList 256 (by decide) (by decide) (by decide)).2.2 (by decide)).1⟩

/-- Claim C26: `is_valid_path` is monotone in the root list and does not
depend on its order: a candidate accepted with `roots` is accepted with every
list that contains the entries of `roots`, and two lists with the same
entries give the same answer; hence a candidate approved for the customer
role is approved for the warehouse role, and one approved for the warehouse
role is approved for the admin role. -/
theorem is_valid_path_monotone (PATH_MAX : Nat) (realpath : Realpath) (path : CStr) :
    (∀ roots roots2 : List CStr, roots ⊆ roots2 →
      is_valid_path PATH_MAX realpath roots path = true →
      is_valid_path PATH_MAX realpath roots2 path = true) ∧
    (∀ roots roots2 : List CStr, (∀ r, r ∈ roots ↔ r ∈ roots2) →
      is_valid_path PATH_MAX realpath roots path = is_valid_path PATH_MAX realpath roots2 path) ∧
    (∀ (getcwd : Option CStr) (P : Paths), initialize_paths PATH_MAX getcwd = some P →
      (is_valid_path PATH_MAX realpath P.customer_base_paths path = true →
        is_valid_path PATH_MAX realpath P.warehouse_base_paths path = true) ∧
      (is_valid_path PATH_MAX realpath P.warehouse_base_paths path = true →
        is_valid_path PATH_MAX realpath P.admin_base_paths path = true)) := by
  have mono : ∀ roots roots2 : List CStr, roots ⊆ roots2 →
      is_valid_path PATH_MAX realpath roots path = true →
      is_valid_path PATH_MAX realpath roots2 path = true := by
    intro roots roots2 hsub h
    obtain ⟨T, hT, r, hr, R, hR, hw⟩ := (is_valid_path_eq_true_iff _ _ _ _).mp h
    exact (is_valid_path_eq_true_iff _ _ _ _).mpr ⟨T, hT, r, hsub hr, R, hR, hw⟩
  refine ⟨mono, ?_, ?_⟩
  · intro roots roots2 hsame
    have h1 : roots ⊆ roots2 := fun r hr => (hsame r).mp hr
    have h2 : roots2 ⊆ roots := fun r hr => (hsame r).mpr hr
    cases ha : is_valid_path PATH_MAX realpath roots path with
    | true => exact (mono roots roots2 h1 ha).symm
    | false =>
      cases hb : is_valid_path PATH_MAX realpath roots2 path with
      | false => rfl
      | true =>
        rw [mono roots2 roots h2 hb] at ha
        cases ha
  · intro getcwd P hinit
    obtain ⟨L, -, -, -, -, eAs, eWs, eCs⟩ := initialize_paths_eq_some _ _ _ hinit
    constructor
    · apply mono
      rw [eCs, eWs]
      intro x hx
      simp only [List.mem_singleton] at hx
      simp [hx]
    · apply mono
      rw [eWs, eAs]
      intro x hx
      simp only [List.mem_cons, List.mem_singleton, List.not_mem_nil, or_false] at hx
      rcases hx with hx | hx <;> simp [hx]

/-- Witness for claim C26: started in `/srv`, the new file
`/srv/logistics/customers/order.txt` is approved for the customer, hence for
the warehouse and for the admin. -/
theorem is_valid_path_monotone_witness :
    (initialize_paths 4096 (some "/srv".toList) = some pathsSrv ∧
      is_valid_path 4096 fsRoles pathsSrv.customer_base_paths
        "/srv/logistics/customers/order.txt".toList = true) ∧
    is_valid_path 4096 fsRoles pathsSrv.warehouse_base_paths
      "/srv/logistics/customers/order.txt".toList = true ∧
    is_valid_path 4096 fsRoles pathsSrv.admin_base_paths
      "/srv/logistics/customers/order.txt".toList = true :=
  have h := (is_valid_path_monotone 4096 fsRoles "/srv/logistics/customers/order.txt".toList).2.2
    (some "/srv".toList) pathsSrv (by decide)
  ⟨⟨by decide, by decide⟩, h.1 (by decide), h.2 (h.1 (by decide))⟩

/-- Claim C29: `sanitize_filename` accepts the name `.` for every size of at
least 2; joined to a base directory `b` it gives `b/.`, which `realpath`
resolves to the canonical form of `b` itself, and `is_valid_path` approves it
with that target when `b` is an allowed root: the sanitized name does not
denote a proper child of the directory. -/
theorem dot_name_accepted (size : Nat) (hsize : 2 ≤ size) :
    sanitize_filename ['.'] size = some ['.'] ∧
    (∀ (PATH_MAX : Nat) (realpath : Realpath) (roots : List CStr) (b R : CStr),
      b ∈ roots → realpath b = some R → realpath (b ++ '/' :: ['.']) = some R →
      is_valid_path.real_target PATH_MAX realpath (b ++ '/' :: ['.']) = realpath b ∧
      is_valid_path PATH_MAX realpath roots (b ++ '/' :: ['.']) = true) := by
  constructor
  · rw [sanitize_filename_eq, if_neg]
    rintro (h | h | h | h | h | h)
    · cases h
    · simp at h
    · have := h.length_le
      simp at this
    · simp at h
    · simp at h
    · simp at h
      omega
  · intro PATH_MAX realpath roots b R hb hR hdot
    have ht := real_target_of_resolves PATH_MAX realpath _ _ hdot
    refine ⟨by rw [ht, hR], ?_⟩
    rw [is_valid_path_eq_true_iff]
    exact ⟨R, ht, b, hb, R, hR, Or.inl rfl⟩

/-- Witness for claim C29: the name `.` with the buffer size 256 and the base
directory `/base`. -/
theorem dot_name_accepted_witness :
    2 ≤ 256 ∧ sanitize_filename ['.'] 256 = some ['.'] ∧
    is_valid_path.real_target 4096 fsDot ("/base".toList ++ '/' :: ['.'])
      = fsDot "/base".toList ∧
    is_valid_path 4096 fsDot ["/base".toList] ("/base".toList ++ '/' :: ['.']) = true :=
  ⟨by decide, (dot_name_accepted 256 (by decide)).1,
    ((dot_name_accepted 256 (by decide)).2 4096 fsDot ["/base".toList] "/base".toList
      "/base".toList (by decide) (by decide) (by decide)).1,
    ((dot_name_accepted 256 (by decide)).2 4096 fsDot ["/base".toList] "/base".toList
      "/base".toList (by decide) (by decide) (by decide)).2⟩

/-! ## The escaping loop of `append_to_file` -/

theorem escape_spec_cons (c : Char) (cs : CStr) :
    escape_spec (c :: cs) =
      (if append_to_file.needs_escape c then ['\\', c] else [c]) ++ escape_spec cs := by
  simp [escape_spec]

theorem escape_spec_length_le (text : CStr) : (escape_spec text).length ≤ 2 * text.length := by
  induction text with
  | nil => simp [escape_spec]
  | cons c cs ih =>
    rw [escape_spec_cons]
    by_cases h : append_to_file.needs_escape c = true
    · simp only [h, if_true, List.length_append, List.length_cons, List.length_nil]
      omega
    · simp only [h, Bool.false_eq_true, if_false, List.length_append, List.length_cons,
        List.length_nil]
      omega

theorem escape_loop_eq (src : CStr) (remaining_size : Nat) (dst : CStr)
    (h : 2 * src.length ≤ remaining_size) :
    append_to_file.escape_loop src remaining_size dst = some (dst ++ escape_spec src) := by
  induction src generalizing remaining_size dst with
  | nil => simp [append_to_file.escape_loop, escape_spec]
  | cons c cs ih =>
    simp only [List.length_cons] at h
    have h0 : ¬ remaining_size = 0 := by omega
    have h2 : ¬ remaining_size < 2 := by omega
    rw [escape_spec_cons]
    by_cases hc : append_to_file.needs_escape c = true
    · simp only [append_to_file.escape_loop, h0, h2, hc, if_true, if_false]
      rw [ih (remaining_size - 2) _ (by omega)]
      simp
    · simp only [append_to_file.escape_loop, h0, hc, Bool.false_eq_true, if_false]
      rw [ih (remaining_size - 1) _ (by omega)]
      simp

/-- Claim C28: for every text of at most 1023 bytes the escaping loop of
`append_to_file` does not reach the "Escaped text is too long" return, the
string it leaves fits the 2048-byte buffer with its terminator, and that
string is the text with one backslash before each `"`, `\`, `$` and backquote
and every other byte unchanged in order. -/
theorem append_escape_fits (text : CStr) (hlen : strlen text ≤ 1023) :
    append_to_file.escaped_text text ≠ none ∧
    append_to_file.escaped_text text = some (escape_spec text) ∧
    strlen (escape_spec text) + 1 ≤ 2048 ∧
    escape_spec text = text.flatMap (fun c =>
      if c = '"' ∨ c = '\\' ∨ c = '$' ∨ c = '\x60' then ['\\', c] else [c]) := by
  unfold strlen at hlen
  have hbound := escape_spec_length_le text
  have heq : append_to_file.escaped_text text = some (escape_spec text) := by
    unfold append_to_file.escaped_text
    rw [escape_loop_eq text (2048 - 1) [] (by omega)]
    simp
  refine ⟨by rw [heq]; simp, heq, by unfold strlen; omega, ?_⟩
  unfold escape_spec
  congr 1
  funext c
  simp [append_to_file.needs_escape, or_assoc]

/-- Witness for claim C28: the text `say "hi" for $5`. -/
theorem append_escape_fits_witness :
    strlen "say \"hi\" for $5".toList ≤ 1023 ∧
    append_to_file.escaped_text "say \"hi\" for $5".toList
      = some "say \\\"hi\\\" for \\$5".toList :=
  ⟨by decide,
    (append_escape_fits "say \"hi\" for $5".toList (by decide)).2.1.trans (by decide)⟩

/-! ## Further claims on selection, start-up and aliases -/

/-- Claim C25: every directory that `select_base_path_with_other` returns, a
listed root or a composed `parent/subdirectory`, is accepted by
`is_valid_path` against the same root list and the same file system, provided
every listed root canonicalizes. -/
theorem selected_directory_valid (PATH_MAX : Nat) (realpath : Realpath)
    (stat_is_dir : CStr → Bool) (roots : List CStr) (prompt : CStr) (w : World) (v : CStr)
    (hroots : ∀ r ∈ roots, ∃ R, realpath r = some R)
    (h : select_base_path_with_other.value PATH_MAX realpath stat_is_dir
      (UserContext.of_roots roots) prompt w = some v) :
    is_valid_path PATH_MAX realpath roots v = true := by
  have hcount : ((UserContext.of_roots roots).base_paths_count : Int) = (roots.length : Int) := rfl
  unfold select_base_path_with_other.value at h
  rcases hin : get_input "Enter your choice: ".toList 10
      (select_base_path_with_other.menu (UserContext.of_roots roots) prompt w) with ⟨o, w2⟩
  cases o with
  | none =>
    have hnone : select_base_path_with_other PATH_MAX realpath stat_is_dir
        (UserContext.of_roots roots) prompt w
          = (none, w2.printf (.text "Error reading input.".toList)) := by
      unfold select_base_path_with_other
      simp only [hin]
    rw [hnone] at h
    cases h
  | some c =>
    rw [select_of_choice PATH_MAX realpath stat_is_dir _ prompt w w2 c hin, hcount] at h
    by_cases hr : atoi c - 1 < 0 ∨ atoi c - 1 > (roots.length : Int)
    · rw [if_pos hr] at h
      cases h
    · rw [if_neg hr] at h
      by_cases he : atoi c - 1 = (roots.length : Int)
      · rw [if_pos he] at h
        obtain ⟨_, _, s, _, _, p, -, -, -, -, -, -, hvalid, -, hv⟩ :=
          (other_flow_returns_iff PATH_MAX realpath stat_is_dir roots w2 v).1.mp h
        rw [hv]
        exact hvalid
      · rw [if_neg he] at h
        have hlt : (atoi c - 1).toNat < roots.length := by omega
        have hv : v = roots[(atoi c - 1).toNat] := by
          simp only [Option.map_some', Option.some.injEq, PathRef.read, UserContext.of_roots] at h
          rw [← h, List.getD_eq_getElem?_getD, List.getElem?_eq_getElem hlt]
          rfl
        have hmem : v ∈ roots := by
          rw [hv]
          exact List.getElem_mem _
        obtain ⟨R, hR⟩ := hroots v hmem
        rw [is_valid_path_eq_true_iff]
        exact ⟨R, real_target_of_resolves PATH_MAX realpath v R hR, v, hmem, R, hR, Or.inl rfl⟩

/-- Witness for claim C25: the directory `/warehouse/incoming` selected
through "Other", here with a NUL byte and more text after the name, is
accepted by `is_valid_path`. -/
theorem selected_directory_valid_witness :
    ((∀ r ∈ rootsExample, ∃ R, fsIncoming r = some R) ∧
      select_base_path_with_other.value 4096 fsIncoming (dirsOf fsIncoming)
        (UserContext.of_roots rootsExample) "Select:".toList
        (World.start "4\n2\nincoming\x00/../../etc\n".toList)
        = some "/warehouse/incoming".toList) ∧
    is_valid_path 4096 fsIncoming rootsExample "/warehouse/incoming".toList = true :=
  have hroots : ∀ r ∈ rootsExample, ∃ R, fsIncoming r = some R := by
    intro r hr
    have hall : ∀ r ∈ rootsExample, fsIncoming r = some r := by decide
    exact ⟨r, hall r hr⟩
  ⟨⟨hroots, by decide⟩,
    selected_directory_valid 4096 fsIncoming (dirsOf fsIncoming) rootsExample "Select:".toList
      (World.start "4\n2\nincoming\x00/../../etc\n".toList) "/warehouse/incoming".toList
      hroots (by decide)⟩

theorem ite_ne_of_ne {α : Type} (c : Prop) [Decidable c] (a b x : α) (ha : a ≠ x)
    (hb : b ≠ x) : (if c then a else b) ≠ x := by
  split_ifs <;> assumption

theorem warehouse_menu_never_calls (choice : Int) (f : Callee)
    (hf : f = Callee.copy_file ∨ f = Callee.find_file ∨ f = Callee.search_content ∨
      f = Callee.change_permissions) :
    main_menu.switch "warehouse".toList choice ≠ MenuStep.call f := by
  unfold main_menu.switch
  rw [if_neg (by decide), if_pos rfl]
  rcases hf with h | h | h | h <;> subst h <;>
    repeat' (first | exact (by decide) | apply ite_ne_of_ne)

/-- Claim C27: `use_alias` maps the stored command string to a function
without looking at the role: in a warehouse session, an alias whose command
is `copy`, `find`, `search` or `change_perms` makes `use_alias` call
`copy_file`, `find_file`, `search_content` or `change_permissions`, although
no choice of the warehouse menu of `main_menu` calls any of these four; and
any context with the same alias pointers gets the same call. -/
theorem use_alias_ignores_role (P : Paths) (ctx : UserContext) (t : AliasTables)
    (w w1 : World) (alias_name command : CStr)
    (hctx : select_user_type.user_ctx P 2 = some ctx)
    (hin : get_input "Enter alias to use: ".toList 256 w = (some alias_name, w1))
    (hfind : use_alias.find alias_name (t.warehouse_aliases.take t.warehouse_alias_count)
      = some command) :
    (command = "copy".toList → use_alias ctx t w = (some Callee.copy_file, w1)) ∧
    (command = "find".toList → use_alias ctx t w = (some Callee.find_file, w1)) ∧
    (command = "search".toList → use_alias ctx t w = (some Callee.search_content, w1)) ∧
    (command = "change_perms".toList →
      use_alias ctx t w = (some Callee.change_permissions, w1)) ∧
    (∀ choice : Int,
      main_menu.switch ctx.user_type choice ≠ MenuStep.call Callee.copy_file ∧
      main_menu.switch ctx.user_type choice ≠ MenuStep.call Callee.find_file ∧
      main_menu.switch ctx.user_type choice ≠ MenuStep.call Callee.search_content ∧
      main_menu.switch ctx.user_type choice ≠ MenuStep.call Callee.change_permissions) ∧
    (∀ ctx2 : UserContext, ctx2.aliases = ctx.aliases → ctx2.alias_count = ctx.alias_count →
      use_alias ctx2 t w = use_alias ctx t w) := by
  have hc : ctx = ctxWarehouse P := by
    have h : select_user_type.user_ctx P 2 = some (ctxWarehouse P) := rfl
    rw [h] at hctx
    exact (Option.some.inj hctx).symm
  have hrun : use_alias ctx t w =
      match use_alias.dispatch command with
      | some f => (some f, w1)
      | none => (none, w1.printf (.text "Command is not recognized.".toList)) := by
    subst hc
    unfold use_alias
    simp only [ctxWarehouse, hin, AliasTables.array, AliasTables.count, hfind]
  refine ⟨?_, ?_, ?_, ?_, ?_, ?_⟩
  · intro e
    rw [hrun, e]
    rfl
  · intro e
    rw [hrun, e]
    rfl
  · intro e
    rw [hrun, e]
    rfl
  · intro e
    rw [hrun, e]
    rfl
  · intro choice
    subst hc
    exact ⟨warehouse_menu_never_calls choice _ (Or.inl rfl),
      warehouse_menu_never_calls choice _ (Or.inr (Or.inl rfl)),
      warehouse_menu_never_calls choice _ (Or.inr (Or.inr (Or.inl rfl))),
      warehouse_menu_never_calls choice _ (Or.inr (Or.inr (Or.inr rfl)))⟩
  · intro ctx2 ha hcnt
    unfold use_alias
    rw [ha, hcnt]

/-- Witness for claim C27: a warehouse session stores the alias `c` for the
command `copy` with `set_alias`, and `use_alias` then calls `copy_file`, for
the line `c` and also for a line that carries a NUL byte after `c`. -/
theorem use_alias_ignores_role_witness :
    (∃ ctx, select_user_type.user_ctx pathsSrv 2 = some ctx ∧
      use_alias ctx (set_alias ctx AliasTables.initial (World.start "c\ncopy\n".toList)).1
        (World.start "c\n".toList)
        = (some Callee.copy_file,
            (get_input "Enter alias to use: ".toList 256 (World.start "c\n".toList)).2) ∧
      use_alias ctx (set_alias ctx AliasTables.initial (World.start "c\ncopy\n".toList)).1
        (World.start "c\x00y\n".toList)
        = (some Callee.copy_file,
            (get_input "Enter alias to use: ".toList 256
              (World.start "c\x00y\n".toList)).2)) ∧
    ∀ choice : Int, main_menu.switch "warehouse".toList choice ≠ MenuStep.call Callee.copy_file :=
  have h := use_alias_ignores_role pathsSrv (ctxWarehouse pathsSrv)
    (set_alias (ctxWarehouse pathsSrv) AliasTables.initial
      (World.start "c\ncopy\n".toList)).1
    (World.start "c\n".toList)
    (get_input "Enter alias to use: ".toList 256 (World.start "c\n".toList)).2
    "c".toList "copy".toList rfl (by decide) (by decide)
  have h2 := use_alias_ignores_role pathsSrv (ctxWarehouse pathsSrv)
    (set_alias (ctxWarehouse pathsSrv) AliasTables.initial
      (World.start "c\ncopy\n".toList)).1
    (World.start "c\x00y\n".toList)
    (get_input "Enter alias to use: ".toList 256 (World.start "c\x00y\n".toList)).2
    "c".toList "copy".toList rfl (by decide) (by decide)
  ⟨⟨_, rfl, h.1 rfl, h2.1 rfl⟩, fun choice => (h.2.2.2.2.1 choice).1⟩

theorem other_returns_temp_path (PATH_MAX : Nat) (realpath : Realpath)
    (stat_is_dir : CStr → Bool) (user_ctx : UserContext) (w w2 : World) (ref : PathRef)
    (h : select_base_path_with_other.other PATH_MAX realpath stat_is_dir user_ctx w
      = (some ref, w2)) :
    ref = PathRef.temp_path := by
  rcases hin : get_input "Enter your choice: ".toList 10
      (select_base_path_with_other.other_menu user_ctx w) with ⟨o, w1⟩
  cases o with
  | none =>
    unfold select_base_path_with_other.other at h
    simp only [hin] at h
    cases h
  | some c =>
    rw [other_of_choice PATH_MAX realpath stat_is_dir user_ctx w w1 c hin] at h
    split_ifs at h
    · cases h
    · rcases hin3 : get_input
          "Enter the subdirectory path under selected base directory: ".toList 256 w1
        with ⟨o3, w3⟩
      simp only [hin3] at h
      cases o3 with
      | none => cases h
      | some name =>
        simp only at h
        unfold select_base_path_with_other.subdir at h
        cases hs : sanitize_filename name 256 with
        | none =>
          simp only [hs] at h
          cases h
        | some out =>
          simp only [hs] at h
          split_ifs at h <;> cases h
          rfl

/-- Claim C24: the "Other" branch of `select_base_path_with_other` returns a
pointer to its one static buffer `temp_path`, which a later "Other" selection
overwrites. When both selections of `copy_file`, `move_file` or
`create_symbolic_link` succeed through "Other", the buffer holds the first
selection's directory after the first and the second selection's directory
after the second, and both full paths are formatted then: the first (source
or target) path is built from the second selection's directory, and when the
checks pass the command handed to `system` names that directory. -/
theorem static_buffer_aliasing (PATH_MAX : Nat) (realpath : Realpath) (stat : Stat)
    (user_ctx : UserContext) (hcount : user_ctx.base_paths_count = user_ctx.base_paths.length) :
    (∀ (w w2 : World) (ref : PathRef),
      select_base_path_with_other.other PATH_MAX realpath stat.is_dir user_ctx w
        = (some ref, w2) →
      ref = PathRef.temp_path ∧ PathRef.read user_ctx w2 ref = w2.temp_path) ∧
    (∀ (w w1 w2 w3 w4 : World) (source destination s d : CStr),
      get_input "Enter source file to copy: ".toList 256 w = (some source, w1) →
      get_input "Enter destination file name: ".toList 256 w1 = (some destination, w2) →
      sanitize_filename source 256 = some s → sanitize_filename destination 256 = some d →
      select_base_path_with_other PATH_MAX realpath stat.is_dir user_ctx
        "Select the directory where the source file is located:".toList w2
          = (some PathRef.temp_path, w3) →
      select_base_path_with_other PATH_MAX realpath stat.is_dir user_ctx
        "Select the directory where the destination file will be created:".toList w3
          = (some PathRef.temp_path, w4) →
      SelectedViaOther PATH_MAX realpath stat.is_dir user_ctx.base_paths
        "Select the directory where the source file is located:".toList w2 w3.temp_path ∧
      SelectedViaOther PATH_MAX realpath stat.is_dir user_ctx.base_paths
        "Select the directory where the destination file will be created:".toList w3
        w4.temp_path ∧
      copy_file PATH_MAX realpath stat user_ctx w =
        copy_file.issue PATH_MAX realpath stat user_ctx
          (w4.temp_path ++ '/' :: s) (w4.temp_path ++ '/' :: d) w4 ∧
      ((w4.temp_path ++ '/' :: s).length < PATH_MAX →
        (w4.temp_path ++ '/' :: d).length < PATH_MAX →
        is_valid_path PATH_MAX realpath user_ctx.base_paths (w4.temp_path ++ '/' :: s) = true →
        is_valid_path PATH_MAX realpath user_ctx.base_paths (w4.temp_path ++ '/' :: d) = true →
        stat (w4.temp_path ++ '/' :: s) ≠ none →
        copy_file PATH_MAX realpath stat user_ctx w =
          (some ("cp \"".toList ++ (w4.temp_path ++ '/' :: s) ++ "\" \"".toList
            ++ (w4.temp_path ++ '/' :: d) ++ "\"".toList), w4))) ∧
    (∀ (w w1 w2 w3 : World) (source s : CStr),
      get_input "Enter source file to move: ".toList 256 w = (some source, w1) →
      sanitize_filename source 256 = some s →
      select_base_path_with_other PATH_MAX realpath stat.is_dir user_ctx
        "Select the directory where the source file is located:".toList w1
          = (some PathRef.temp_path, w2) →
      select_base_path_with_other PATH_MAX realpath stat.is_dir user_ctx
        "Select the directory where the file will be moved to:".toList w2
          = (some PathRef.temp_path, w3) →
      SelectedViaOther PATH_MAX realpath stat.is_dir user_ctx.base_paths
        "Select the directory where the source file is located:".toList w1 w2.temp_path ∧
      SelectedViaOther PATH_MAX realpath stat.is_dir user_ctx.base_paths
        "Select the directory where the file will be moved to:".toList w2 w3.temp_path ∧
      move_file PATH_MAX realpath stat user_ctx w =
        move_file.issue PATH_MAX realpath stat user_ctx
          (w3.temp_path ++ '/' :: s) (w3.temp_path ++ '/' :: s) w3 ∧
      ((w3.temp_path ++ '/' :: s).length < PATH_MAX →
        is_valid_path PATH_MAX realpath user_ctx.base_paths (w3.temp_path ++ '/' :: s) = true →
        stat (w3.temp_path ++ '/' :: s) ≠ none →
        move_file PATH_MAX realpath stat user_ctx w =
          (some ("mv \"".toList ++ (w3.temp_path ++ '/' :: s) ++ "\" \"".toList
            ++ (w3.temp_path ++ '/' :: s) ++ "\"".toList), w3))) ∧
    (∀ (w w1 w2 w3 w4 : World) (target link_name s d : CStr),
      get_input "Enter target file for symbolic link: ".toList 256 w = (some target, w1) →
      get_input "Enter symbolic link name: ".toList 256 w1 = (some link_name, w2) →
      sanitize_filename target 256 = some s → sanitize_filename link_name 256 = some d →
      select_base_path_with_other PATH_MAX realpath stat.is_dir user_ctx
        "Select the directory where the target file is located:".toList w2
          = (some PathRef.temp_path, w3) →
      select_base_path_with_other PATH_MAX realpath stat.is_dir user_ctx
        "Select the directory where the symbolic link will be created:".toList w3
          = (some PathRef.temp_path, w4) →
      SelectedViaOther PATH_MAX realpath stat.is_dir user_ctx.base_paths
        "Select the directory where the target file is located:".toList w2 w3.temp_path ∧
      SelectedViaOther PATH_MAX realpath stat.is_dir user_ctx.base_paths
        "Select the directory where the symbolic link will be created:".toList w3
        w4.temp_path ∧
      create_symbolic_link PATH_MAX realpath stat user_ctx w =
        create_symbolic_link.issue PATH_MAX realpath stat user_ctx
          (w4.temp_path ++ '/' :: s) (w4.temp_path ++ '/' :: d) w4 ∧
      ((w4.temp_path ++ '/' :: s).length < PATH_MAX →
        (w4.temp_path ++ '/' :: d).length < PATH_MAX →
        is_valid_path PATH_MAX realpath user_ctx.base_paths (w4.temp_path ++ '/' :: s) = true →
        is_valid_path PATH_MAX realpath user_ctx.base_paths (w4.temp_path ++ '/' :: d) = true →
        stat (w4.temp_path ++ '/' :: s) ≠ none →
        create_symbolic_link PATH_MAX realpath stat user_ctx w =
          (some ("ln -s \"".toList ++ (w4.temp_path ++ '/' :: s) ++ "\" \"".toList
            ++ (w4.temp_path ++ '/' :: d) ++ "\"".toList), w4))) := by
  obtain ⟨roots, count, user_type, aliases, alias_count⟩ := user_ctx
  simp only at hcount
  subst hcount
  have hsel : ∀ (prompt : CStr) (w w2 : World),
      select_base_path_with_other PATH_MAX realpath stat.is_dir
        { base_paths := roots, base_paths_count := roots.length, user_type := user_type,
          aliases := aliases, alias_count := alias_count } prompt w
        = (some PathRef.temp_path, w2) →
      SelectedViaOther PATH_MAX realpath stat.is_dir roots prompt w w2.temp_path := by
    intro prompt w w2 h
    have h0 : select_base_path_with_other PATH_MAX realpath stat.is_dir
        (UserContext.of_roots roots) prompt w = (some PathRef.temp_path, w2) := h
    have hcnt : ((UserContext.of_roots roots).base_paths_count : Int) = (roots.length : Int) :=
      rfl
    rcases hin : get_input "Enter your choice: ".toList 10
        (select_base_path_with_other.menu (UserContext.of_roots roots) prompt w) with ⟨o, w0⟩
    cases o with
    | none =>
      unfold select_base_path_with_other at h0
      simp only [hin] at h0
      cases h0
    | some c0 =>
      rw [select_of_choice PATH_MAX realpath stat.is_dir _ prompt w w0 c0 hin, hcnt] at h0
      by_cases hr : atoi c0 - 1 < 0 ∨ atoi c0 - 1 > (roots.length : Int)
      · rw [if_pos hr] at h0
        cases h0
      · rw [if_neg hr] at h0
        by_cases he : atoi c0 - 1 = (roots.length : Int)
        · rw [if_pos he] at h0
          rcases hin2 : get_input "Enter your choice: ".toList 10
              (select_base_path_with_other.other_menu (UserContext.of_roots roots) w0)
            with ⟨o2, w1⟩
          cases o2 with
          | none =>
            unfold select_base_path_with_other.other at h0
            simp only [hin2] at h0
            cases h0
          | some c =>
            rw [other_of_choice PATH_MAX realpath stat.is_dir _ w0 w1 c hin2, hcnt] at h0
            by_cases hr2 : atoi c - 1 < 0 ∨ atoi c - 1 ≥ (roots.length : Int)
            · rw [if_pos hr2] at h0
              cases h0
            · rw [if_neg hr2] at h0
              rcases hin3 : get_input
                  "Enter the subdirectory path under selected base directory: ".toList 256 w1
                with ⟨o3, w3⟩
              simp only [hin3] at h0
              cases o3 with
              | none => cases h0
              | some name =>
                simp only at h0
                obtain ⟨k, hk⟩ : ∃ k : Nat, atoi c = (k : Int) + 1 :=
                  ⟨(atoi c - 1).toNat, by omega⟩
                have hkn : k < roots.length := by omega
                have htn : (atoi c - 1).toNat = k := by omega
                have hget : roots.get? k = some (roots.getD k []) := by
                  rw [List.getD_eq_getElem?_getD, List.get?_eq_getElem?,
                    List.getElem?_eq_getElem hkn]
                  rfl
                have hbp : (UserContext.of_roots roots).base_paths = roots := rfl
                rw [hbp, htn] at h0
                unfold select_base_path_with_other.subdir at h0
                cases hs : sanitize_filename name 256 with
                | none =>
                  simp only [hs] at h0
                  cases h0
                | some out =>
                  obtain ⟨rfl, -⟩ := sanitize_filename_verbatim name out 256 hs
                  simp only [hs, UserContext.of_roots, List.take_length] at h0
                  by_cases hlen : (roots.getD k [] ++ '/' :: out).length ≥ PATH_MAX
                  · rw [if_pos hlen] at h0
                    cases h0
                  · rw [if_neg hlen] at h0
                    have htk : List.take (PATH_MAX - 1) (roots.getD k [] ++ '/' :: out)
                        = roots.getD k [] ++ '/' :: out := List.take_of_length_le (by omega)
                    simp only [htk] at h0
                    cases hv : is_valid_path PATH_MAX realpath roots
                        (roots.getD k [] ++ '/' :: out) with
                    | false =>
                      simp only [hv, Bool.not_false, if_true] at h0
                      cases h0
                    | true =>
                      cases hd : stat.is_dir (roots.getD k [] ++ '/' :: out) with
                      | false =>
                        simp only [hv, hd, Bool.not_true, Bool.false_eq_true, if_false] at h0
                        cases h0
                      | true =>
                        simp only [hv, hd, Bool.not_true, Bool.false_eq_true, if_false, if_true,
                          Prod.mk.injEq, true_and] at h0
                        subst h0
                        exact ⟨c0, w0, c, w1, out, w3, k, roots.getD k [], hin, by omega, hin2,
                          hk, hget, hin3, by rw [hs]; rfl, rfl,
                          Nat.lt_of_not_ge hlen, hv, hd⟩
        · rw [if_neg he] at h0
          cases h0
  have htake : List.take roots.length roots = roots := List.take_length roots
  refine ⟨?_, ?_, ?_, ?_⟩
  · intro w w2 ref h
    have hr := other_returns_temp_path PATH_MAX realpath stat.is_dir _ w w2 ref h
    subst hr
    exact ⟨rfl, rfl⟩
  · intro w w1 w2 w3 w4 source destination s d h1 h2 hs hd hsel1 hsel2
    have hrun : copy_file PATH_MAX realpath stat
        { base_paths := roots, base_paths_count := roots.length, user_type := user_type,
          aliases := aliases, alias_count := alias_count } w =
        copy_file.issue PATH_MAX realpath stat
          { base_paths := roots, base_paths_count := roots.length, user_type := user_type,
            aliases := aliases, alias_count := alias_count }
          (w4.temp_path ++ '/' :: s) (w4.temp_path ++ '/' :: d) w4 := by
      unfold copy_file
      simp only [h1, h2, hs, hd, hsel1, hsel2, PathRef.read]
    refine ⟨hsel _ _ _ hsel1, hsel _ _ _ hsel2, hrun, fun l1 l2 v1 v2 hst => ?_⟩
    rw [hrun]
    unfold copy_file.issue
    simp only [htake, v1, v2]
    rw [if_neg (by omega), if_neg (by simp), if_neg hst]
  · intro w w1 w2 w3 source s h1 hs hsel1 hsel2
    have hrun : move_file PATH_MAX realpath stat
        { base_paths := roots, base_paths_count := roots.length, user_type := user_type,
          aliases := aliases, alias_count := alias_count } w =
        move_file.issue PATH_MAX realpath stat
          { base_paths := roots, base_paths_count := roots.length, user_type := user_type,
            aliases := aliases, alias_count := alias_count }
          (w3.temp_path ++ '/' :: s) (w3.temp_path ++ '/' :: s) w3 := by
      unfold move_file
      simp only [h1, hs, hsel1, hsel2, PathRef.read]
    refine ⟨hsel _ _ _ hsel1, hsel _ _ _ hsel2, hrun, fun l1 v1 hst => ?_⟩
    rw [hrun]
    unfold move_file.issue
    simp only [htake, v1]
    rw [if_neg (by omega), if_neg (by simp), if_neg hst]
  · intro w w1 w2 w3 w4 target link_name s d h1 h2 hs hd hsel1 hsel2
    have hrun : create_symbolic_link PATH_MAX realpath stat
        { base_paths := roots, base_paths_count := roots.length, user_type := user_type,
          aliases := aliases, alias_count := alias_count } w =
        create_symbolic_link.issue PATH_MAX realpath stat
          { base_paths := roots, base_paths_count := roots.length, user_type := user_type,
            aliases := aliases, alias_count := alias_count }
          (w4.temp_path ++ '/' :: s) (w4.temp_path ++ '/' :: d) w4 := by
      unfold create_symbolic_link
      simp only [h1, h2, hs, hd, hsel1, hsel2, PathRef.read]
    refine ⟨hsel _ _ _ hsel1, hsel _ _ _ hsel2, hrun, fun l1 l2 v1 v2 hst => ?_⟩
    rw [hrun]
    unfold create_symbolic_link.issue
    simp only [htake, v1, v2]
    rw [if_neg (by omega), if_neg (by simp), if_neg hst]

/-- Witness for claim C24: with `a.txt` in both `/warehouse/in` and
`/warehouse/out`, a copy of `a.txt` to `b.txt` with the source directory
chosen as "Other" `in` and the destination directory as "Other" `out`: after
the first selection the buffer holds `/warehouse/in`, after the second
`/warehouse/out`, and the command issued is
`cp "/warehouse/out/a.txt" "/warehouse/out/b.txt"`. -/
theorem static_buffer_aliasing_witness :
    (UserContext.of_roots rootsExample).base_paths_count
      = (UserContext.of_roots rootsExample).base_paths.length ∧
    copyExampleSource.temp_path = "/warehouse/in".toList ∧
    copyExampleDestination.temp_path = "/warehouse/out".toList ∧
    SelectedViaOther 4096 fsInOut statInOut.is_dir rootsExample
      "Select the directory where the source file is located:".toList copyExampleNamed
      copyExampleSource.temp_path ∧
    copy_file 4096 fsInOut statInOut (UserContext.of_roots rootsExample) copyExample
      = (some "cp \"/warehouse/out/a.txt\" \"/warehouse/out/b.txt\"".toList,
          copyExampleDestination) :=
  have h := (static_buffer_aliasing 4096 fsInOut statInOut (UserContext.of_roots rootsExample)
    rfl).2.1 copyExample
    (get_input "Enter source file to copy: ".toList 256 copyExample).2
    copyExampleNamed copyExampleSource copyExampleDestination
    "a.txt".toList "b.txt".toList "a.txt".toList "b.txt".toList
    (Prod.ext (by decide) rfl) (Prod.ext (by decide) rfl) (by decide) (by decide)
    (Prod.ext (by decide) rfl) (Prod.ext (by decide) rfl)
  ⟨rfl, by decide, by decide, h.1,
    (h.2.2.2 (by decide) (by decide) (by decide) (by decide) (by decide)).trans
      (Prod.ext (by decide) rfl)⟩

end Logistics
